import Mathlib

/-!
A shallow embedding of the core of the `sql-type` static SQL type checker:
the unification primitive (`typer.rs`), the function-call typer
(`type_function.rs`), the INSERT/REPLACE typer (`type_insert_replace.rs`) and
the SELECT/UNION typer (`type_select.rs`), together with theorems settling the
frozen claims about them.

External collaborators (the generic expression typer, the reference-clause
typer) and data definitions that are not part of the given sources
(`type_.rs`, the `sql_parse` AST) are modelled from the specification; every
such definition is marked `Modelled from the spec:` in its doc comment.
Diagnostic messages are represented structurally (one constructor per
`format!` template in the source) so that claims about which diagnostics are
raised become decidable.
-/

namespace SqlType

/-- Modelled from the spec: a source span (`sql_parse::Span`, a byte range). -/
abbrev Span := Nat × Nat

/-- Modelled from the spec: the closed set of scalar base-type categories,
including the `Any` and `Null` wildcards and the `Invalid` error marker. -/
inductive BaseType where
  | Any
  | Bool
  | Date
  | DateTime
  | Float
  | Integer
  | Invalid
  | Json
  | Null
  | String
  | TimeStamp
deriving DecidableEq, Repr

/-- Modelled from the spec: the argument kind recorded for a placeholder
occurrence; the code only distinguishes the list-expansion (`ListHack`)
kind used for IN-list-style placeholders. -/
inductive ArgType where
  | ListHack
  | Normal
deriving DecidableEq, Repr

/-- Modelled from the spec: the type language (`Type` in `type_.rs`): base
categories, sized numeric variants, the `Null`/`Invalid` markers, JSON, and
`Args`, a base type carrying the placeholder positions that flow into it. -/
inductive Ty where
  | Base (b : BaseType)
  | Null
  | Invalid
  | U64
  | I64
  | F64
  | JSON
  | Args (b : BaseType) (args : List (Nat × ArgType × Span))
deriving DecidableEq, Repr

/-- Modelled from the spec: `Type::base`, the coarse category of a type. -/
def Ty.base : Ty → BaseType
  | .Base b => b
  | .Null => .Null
  | .Invalid => .Invalid
  | .U64 => .Integer
  | .I64 => .Integer
  | .F64 => .Float
  | .JSON => .Json
  | .Args b _ => b

/-- Modelled from the spec: a full type: a type, a not-null flag, and the
list-expansion marker used for IN-list-style placeholders. -/
structure FullType where
  t : Ty
  not_null : Bool
  list_hack : Bool
deriving DecidableEq, Repr

/-- Modelled from the spec: `FullType::new` (the list-expansion marker starts
cleared). -/
def FullType.new (t : Ty) (not_null : Bool) : FullType :=
  ⟨t, not_null, false⟩

/-- Modelled from the spec: `FullType::invalid`. -/
def FullType.invalid : FullType :=
  FullType.new Ty.Invalid false

/-- Modelled from the spec: `FullType::base` (the base of the carried type). -/
def FullType.base (f : FullType) : BaseType :=
  f.t.base

/-- Modelled from the spec: a placeholder key (positional index or named). -/
inductive ArgumentKey where
  | Index (n : Nat)
  | Identifier (s : String)
deriving DecidableEq, Repr

/-- Diagnostic severity. -/
inductive IssueLevel where
  | Error
  | Warning
deriving DecidableEq, Repr

/-- The diagnostic messages produced by the embedded sources, one constructor
per `format!` template, carrying the formatted-in values structurally. -/
inductive Message where
  | expectedArguments (cnt got : Nat)
  | expectedArgumentsBetween (lo hi got : Nat)
  | argument (i : Nat)
  | expectedTypeGot (expected got : Ty)
  | cannotBeNull
  | noneMatchingInputTypes
  | typeIs (t : Ty)
  | ofType (t : Ty)
  | incompatibleTypes
  | valueOnlyInOnDuplicateKeyUpdate
  | typingNotImplemented
  | notYetImplemented
  | internalCompilerError
  | ambigiousReference
  | ambiguousReference
  | definedHere
  | unknownIdentifier
  | asNotSupportedForStar
  | unknownTable
  | notSupportedHere
  | invalidIdentifier
  | unnamedColumnInSelect
  | multipleColumnsNamed (name : String)
  | alsoDefinedHere
  | expectedIntegerTypeGot (t : Ty)
  | incompatibleNamesInUnion
  | columnIsNamed (i : Nat) (name : String)
  | columnHasNoName (i : Nat)
  | incompatibleTypesInUnion
  | columnIsOfType (i : Nat) (t : Ty)
  | columnNamedOnlyOnThisSide (i : Nat) (name : String)
  | columnOnlyOnThisSide (i : Nat)
  | insertsIntoViewsNotImplemented
  | noSuchColumnInSchema
  | gotType (t : Ty)
  | expectedType (t : Ty)
  | columnInSelectNotInInsert
  | missingColumnInSelect
  | duplicateDefinitions
  | alreadyDefinedHere
  | gotTypeExpectedFull (got expected : FullType)
deriving DecidableEq, Repr

/-- Modelled from the spec: a diagnostic: a severity, a primary message and
location, and zero or more secondary labelled fragments. -/
structure Issue where
  level : IssueLevel
  message : Message
  span : Span
  frags : List (Message × Span)
deriving DecidableEq, Repr

/-- `Issue::err`. -/
def Issue.err (m : Message) (s : Span) : Issue :=
  ⟨IssueLevel.Error, m, s, []⟩

/-- `Issue::warn`. -/
def Issue.warn (m : Message) (s : Span) : Issue :=
  ⟨IssueLevel.Warning, m, s, []⟩

/-- `Issue::frag`: append one secondary labelled fragment. -/
def Issue.frag (i : Issue) (m : Message) (s : Span) : Issue :=
  { i with frags := i.frags ++ [(m, s)] }

/-- A reference scope: an optional name, a span, and the ordered columns. -/
structure ReferenceType where
  name : Option String
  span : Span
  columns : List (String × FullType)
deriving DecidableEq, Repr

/-- Modelled from the spec: one schema column: a name, a declared full type
and an auto-increment flag. -/
structure SchemaColumn where
  identifier : String
  type_ : FullType
  auto_increment : Bool
deriving DecidableEq, Repr

/-- Modelled from the spec: one table schema: an is-view flag and the ordered
column list. -/
structure Schema where
  view : Bool
  columns : List SchemaColumn
deriving DecidableEq, Repr

/-- Modelled from the spec: `Schema::get_column`, lookup by column name. -/
def Schema.get_column (s : Schema) (name : String) : Option SchemaColumn :=
  s.columns.find? (fun c => c.identifier = name)

/-- Modelled from the spec: the read-only schema catalog, lookup by table
name. -/
structure Schemas where
  schemas : List (String × Schema)
deriving DecidableEq, Repr

/-- Catalog lookup (`schemas.get(name)`). -/
def Schemas.get (s : Schemas) (name : String) : Option Schema :=
  (s.schemas.find? (fun p => p.1 = name)).map (fun p => p.2)

/-- The typing context (`Typer`): the diagnostic sink, the schema catalog, the
reference-scope stack and the placeholder-type table. -/
structure Typer where
  issues : List Issue
  schemas : Schemas
  reference_types : List ReferenceType
  arg_types : List (ArgumentKey × FullType)
deriving DecidableEq, Repr

/-- `issues.push(i)`. -/
def Typer.push (st : Typer) (i : Issue) : Typer :=
  { st with issues := st.issues ++ [i] }

/-- The update `constrain_arg` applies to the stored full type of one
placeholder: the stored type is replaced whenever the new type is non-`Any`
or the stored type is still `Any`, and the list-expansion marker is then set
when the argument kind is `ListHack`. -/
def constrain_upd (arg_type : ArgType) (t ot : FullType) : FullType :=
  let ot := if t.base ≠ BaseType.Any ∨ ot.base = BaseType.Any then t else ot
  if arg_type = ArgType.ListHack then { ot with list_hack := true } else ot

/-- The placeholder-table traversal of `constrain_arg`: update the first
entry keyed by the index, or append a fresh entry (initially
`FullType::new(Any, false)`) and update it. -/
def constrain_go (idx : Nat) (arg_type : ArgType) (t : FullType) :
    List (ArgumentKey × FullType) → List (ArgumentKey × FullType)
  | [] => [(ArgumentKey.Index idx,
      constrain_upd arg_type t (FullType.new (Ty.Base BaseType.Any) false))]
  | (k, v) :: rest =>
    if k = ArgumentKey.Index idx then (k, constrain_upd arg_type t v) :: rest
    else (k, v) :: constrain_go idx arg_type t rest

/-- `Typer::constrain_arg`: merge evidence for one placeholder. -/
def constrain_arg (st : Typer) (idx : Nat) (arg_type : ArgType) (t : FullType) :
    Typer :=
  { st with arg_types := constrain_go idx arg_type t st.arg_types }

/-- The placeholder positions carried by a type (`Type::Args`). -/
def Ty.args_of : Ty → List (Nat × ArgType × Span)
  | .Args _ a => a
  | _ => []

/-- The `for (idx, arg_type, _) in a { constrain_arg(...) }` loop of
`matched_type`, run over the placeholder positions of one operand. -/
def constrain_args_of (st : Typer) (t : Ty) (b : BaseType) : Typer :=
  t.args_of.foldl
    (fun s p => constrain_arg s p.1 p.2.1 (FullType.new (Ty.Base b) false)) st

/-- `Typer::matched_type`: the unification primitive. -/
def matched_type (st : Typer) (t1 t2 : Ty) : Typer × Option Ty :=
  if t1 = Ty.Invalid ∧ t2 = Ty.Invalid then (st, some t1)
  else if t1 = Ty.Null then (st, some t2)
  else if t2 = Ty.Null then (st, some t1)
  else
    let t1b0 := t1.base
    let t2b0 := t2.base
    let t1b := if t1b0 = BaseType.Any then t2b0 else t1b0
    let t2b := if t2b0 = BaseType.Any then t1b else t2b0
    if t1b ≠ t2b then (st, none)
    else
      let st := constrain_args_of st t1 t1b
      let st := constrain_args_of st t2 t1b
      if t1b = BaseType.Any then
        let args := t1.args_of ++ t2.args_of
        if args ≠ [] then (st, some (Ty.Args t1b args))
        else (st, some (Ty.Base t1b))
      else (st, some (Ty.Base t1b))

/-- The result component of `matched_type`, which depends only on the two
types (the context is mutated only through `constrain_arg`, which never
affects the returned option). -/
def matched_type_res (t1 t2 : Ty) : Option Ty :=
  if t1 = Ty.Invalid ∧ t2 = Ty.Invalid then some t1
  else if t1 = Ty.Null then some t2
  else if t2 = Ty.Null then some t1
  else
    let t1b0 := t1.base
    let t2b0 := t2.base
    let t1b := if t1b0 = BaseType.Any then t2b0 else t1b0
    let t2b := if t2b0 = BaseType.Any then t1b else t2b0
    if t1b ≠ t2b then none
    else if t1b = BaseType.Any then
      let args := t1.args_of ++ t2.args_of
      if args ≠ [] then some (Ty.Args t1b args)
      else some (Ty.Base t1b)
    else some (Ty.Base t1b)

/-- `Typer::ensure_type`: unify and, on failure, record one error citing the
expected and the given type. -/
def ensure_type (st : Typer) (span : Span) (given expected : FullType) : Typer :=
  let r := matched_type st given.t expected.t
  if r.2.isNone then
    r.1.push (Issue.err (Message.expectedTypeGot expected.t given.t) span)
  else r.1

/-- `Typer::ensure_base`. -/
def ensure_base (st : Typer) (span : Span) (given : FullType) (expected : BaseType) :
    Typer :=
  ensure_type st span given (FullType.new (Ty.Base expected) false)

/-- Modelled from the spec: `Typer::common_type`, the unification primitive
lifted to full types (not in the given sources; `type_select.rs` calls it):
the unified type with not-null equal to the conjunction of the operands'
not-null flags. -/
def common_type (st : Typer) (t1 t2 : FullType) : Typer × Option FullType :=
  let r := matched_type st t1.t t2.t
  match r.2 with
  | none => (r.1, none)
  | some t => (r.1, some (FullType.new t (t1.not_null && t2.not_null)))

/-- Modelled from the spec: `Typer::ensure_bool` (not in the given sources;
`type_select.rs` calls it): require a WHERE-style condition to be Bool. -/
def ensure_bool (st : Typer) (span : Span) (given : FullType) : Typer :=
  ensure_base st span given BaseType.Bool

end SqlType

namespace SqlType

/-- Modelled from the spec: an identifier token with its source span. -/
structure Identifier where
  value : String
  span : Span
deriving DecidableEq, Repr

/-- Modelled from the spec: one dotted part of a (possibly wildcard)
identifier expression. -/
inductive IdentifierPart where
  | Name (i : Identifier)
  | Star (s : Span)
deriving DecidableEq, Repr

/-- Modelled from the spec: the shape of an argument/select expression as far
as the core inspects it: a (possibly qualified, possibly wildcard) identifier,
or any other expression, which is typed by the external expression typer. -/
inductive ExprView where
  | Identifier (parts : List IdentifierPart)
  | Other
deriving DecidableEq, Repr

/-- Modelled from the spec: an expression node, carrying its shape, the full
type the external expression typer computes for it, and its span. -/
structure Expr where
  view : ExprView
  etyp : FullType
  span : Span
deriving DecidableEq, Repr

/-- Modelled from the spec: the ambient expression-typing flags. -/
structure ExpressionFlags where
  in_on_duplicate_key_update : Bool
  with_values : Bool
deriving DecidableEq, Repr

/-- `ExpressionFlags::default()`. -/
def ExpressionFlags.default : ExpressionFlags :=
  ⟨false, false⟩

/-- `flags.without_values()`. -/
def ExpressionFlags.without_values (f : ExpressionFlags) : ExpressionFlags :=
  { f with with_values := false }

/-- `flags.with_in_on_duplicate_key_update(b)`. -/
def ExpressionFlags.with_odku (f : ExpressionFlags) (b : Bool) : ExpressionFlags :=
  { f with in_on_duplicate_key_update := b }

/-- Modelled from the spec: the external expression typer
(`type_expression`), an out-of-scope collaborator: it fully types the
subexpression and returns its full type; here it is an oracle returning the
type carried by the expression node and leaving the context unchanged. -/
def type_expression (st : Typer) (e : Expr) (_flags : ExpressionFlags)
    (_expected : BaseType) : Typer × FullType :=
  (st, e.etyp)

/-- `arg_cnt`: enforce that the argument count lies in `[lo, hi]` (the source
checks a `Range` with an inclusive upper test); out of range, push exactly one
arity error — the exact-count message when the range is empty — with one
labelled fragment per argument at position `hi` or beyond. -/
def arg_cnt (st : Typer) (lo hi : Nat) (args : List Expr) (span : Span) : Typer :=
  if lo ≤ args.length ∧ args.length ≤ hi then st
  else
    let issue :=
      if hi ≤ lo then Issue.err (Message.expectedArguments lo args.length) span
      else Issue.err (Message.expectedArgumentsBetween lo hi args.length) span
    let issue := (args.drop hi).enum.foldl
      (fun i p => i.frag (Message.argument (hi + p.1)) p.2.span) issue
    st.push issue

/-- `typed_args`: type every argument expression via the expression typer. -/
def typed_args (st : Typer) (args : List Expr) (_flags : ExpressionFlags) :
    Typer × List (Expr × FullType) :=
  (st, args.map (fun a => (a, a.etyp)))

/-- The required/optional argument loops of the declarative form `tf`:
consume one argument per declared base type (skipping declared types once the
arguments run out), fold the not-null flags of the consumed arguments, check
each against its declared base, and return the unconsumed arguments. -/
def tf_args (st : Typer) (not_null : Bool) (ets : List BaseType)
    (args : List Expr) (flags : ExpressionFlags) : Typer × Bool × List Expr :=
  match ets, args with
  | [], rest => (st, not_null, rest)
  | _ :: _, [] => (st, not_null, [])
  | et :: ets, arg :: rest =>
    let r := type_expression st arg flags.without_values et
    let not_null := not_null && r.2.not_null
    let st := ensure_base r.1 arg.span r.2 et
    tf_args st not_null ets rest flags

/-- The declarative form of the function typer (the `tf` closure in
`type_function`): a result-type template, required argument base types and
optional argument base types; arity is checked by `arg_cnt`, each positional
argument is checked against its declared base, surplus arguments are still
typed, and the result's not-null flag is the conjunction of the consumed
arguments' flags. -/
def tf (st : Typer) (return_type : Ty) (required_args optional_args : List BaseType)
    (args : List Expr) (flags : ExpressionFlags) (span : Span) : Typer × FullType :=
  let st := arg_cnt st required_args.length
    (required_args.length + optional_args.length) args span
  let r1 := tf_args st true required_args args flags
  let r2 := tf_args r1.1 r1.2.1 optional_args r1.2.2 flags
  let st := r2.2.2.foldl
    (fun s a => (type_expression s a flags.without_values BaseType.Any).1) r2.1
  (st, FullType.new return_type r2.2.1)

/-- Modelled from the spec: the closed set of function tags the function
typer dispatches over (`sql_parse::Function`); `Other` stands for every
unimplemented tag reaching the wildcard arm. -/
inductive Function where
  | Rand
  | Right
  | Left
  | SubStr
  | FindInSet
  | SubStringIndex
  | ExtractValue
  | Replace
  | CharacterLength
  | UnixTimestamp
  | IfNull
  | JsonExtract
  | JsonValue
  | JsonReplace
  | JsonSet
  | JsonUnquote
  | Min
  | Max
  | Sum
  | Now
  | CurDate
  | CurrentTimestamp
  | Concat
  | Least
  | Greatest
  | If
  | FromUnixTime
  | DateFormat
  | Value
  | Other
deriving DecidableEq, Repr

/-- The fold over the later LEAST/GREATEST arguments: conjoin not-null flags,
skip equal types, otherwise unify with the accumulated type, replacing it on
success and pushing one combined error (citing the first and the offending
argument's types) on failure. -/
def least_fold (span : Span) (a : Expr) (at_ : FullType)
    (rest : List (Expr × FullType)) (st : Typer) : Typer × Bool × Ty :=
  rest.foldl
    (fun acc p =>
      let not_null := acc.2.1 && p.2.not_null
      if p.2.t = acc.2.2 then (acc.1, not_null, acc.2.2)
      else
        let m := matched_type acc.1 p.2.t acc.2.2
        match m.2 with
        | some tt => (m.1, not_null, tt)
        | none =>
          (m.1.push (((Issue.err Message.noneMatchingInputTypes span).frag
              (Message.typeIs at_.t) a.span).frag (Message.typeIs p.2.t) p.1.span),
            not_null, acc.2.2))
    (st, true, at_.t)

/-- `type_function`: validate a function call's arity and argument base
types and compute its full type. -/
def type_function (st : Typer) (func : Function) (args : List Expr)
    (span : Span) (flags : ExpressionFlags) : Typer × FullType :=
  match func with
  | .Rand => tf st Ty.F64 [] [BaseType.Integer] args flags span
  | .Right => tf st (Ty.Base BaseType.String) [BaseType.String, BaseType.Integer] [] args flags span
  | .Left => tf st (Ty.Base BaseType.String) [BaseType.String, BaseType.Integer] [] args flags span
  | .SubStr => tf st (Ty.Base BaseType.String) [BaseType.String, BaseType.Integer] [BaseType.Integer] args flags span
  | .FindInSet => tf st (Ty.Base BaseType.Integer) [BaseType.String, BaseType.String] [] args flags span
  | .SubStringIndex => tf st (Ty.Base BaseType.String) [BaseType.String, BaseType.String, BaseType.Integer] [] args flags span
  | .ExtractValue => tf st (Ty.Base BaseType.String) [BaseType.String, BaseType.String] [] args flags span
  | .Replace => tf st (Ty.Base BaseType.String) [BaseType.String, BaseType.String, BaseType.String] [] args flags span
  | .CharacterLength => tf st (Ty.Base BaseType.Integer) [BaseType.String] [] args flags span
  | .UnixTimestamp =>
    let r := typed_args st args flags
    let st := arg_cnt r.1 0 1 args span
    match r.2.get? 0 with
    | some p =>
      let not_null := true && p.2.not_null
      let st := ensure_base st p.1.span p.2 BaseType.DateTime
      (st, FullType.new Ty.I64 not_null)
    | none => (st, FullType.new Ty.I64 true)
  | .IfNull =>
    let r := typed_args st args flags
    let st := arg_cnt r.1 2 2 args span
    let p0 :=
      match r.2.get? 0 with
      | some p =>
        if p.2.not_null then (st.push (Issue.warn Message.cannotBeNull p.1.span), p.2)
        else (st, p.2)
      | none => (st, FullType.invalid)
    match r.2.get? 1 with
    | some p => (ensure_type p0.1 p.1.span p.2 p0.2, p.2)
    | none => (p0.1, p0.2)
  | .JsonExtract =>
    let r := typed_args st args flags
    let st := arg_cnt r.1 2 999 args span
    let st := r.2.foldl (fun s p => ensure_base s p.1.span p.2 BaseType.String) st
    (st, FullType.new Ty.JSON false)
  | .JsonValue =>
    let r := typed_args st args flags
    let st := arg_cnt r.1 2 2 args span
    let st := r.2.foldl (fun s p => ensure_base s p.1.span p.2 BaseType.String) st
    (st, FullType.new Ty.JSON false)
  | .JsonReplace =>
    let r := typed_args st args flags
    let st := arg_cnt r.1 3 999 args span
    let st := r.2.enum.foldl
      (fun s p =>
        if p.1 = 0 ∨ p.1 % 2 = 1 then ensure_base s p.2.1.span p.2.2 BaseType.String
        else s) st
    (st, FullType.new Ty.JSON false)
  | .JsonSet =>
    let r := typed_args st args flags
    let st := arg_cnt r.1 3 999 args span
    let st := r.2.enum.foldl
      (fun s p =>
        if p.1 = 0 ∨ p.1 % 2 = 1 then ensure_base s p.2.1.span p.2.2 BaseType.String
        else s) st
    (st, FullType.new Ty.JSON false)
  | .JsonUnquote =>
    let r := typed_args st args flags
    let st := arg_cnt r.1 1 1 args span
    let st := r.2.foldl (fun s p => ensure_base s p.1.span p.2 BaseType.String) st
    (st, FullType.new (Ty.Base BaseType.String) false)
  | .Min =>
    let r := typed_args st args flags
    let st := arg_cnt r.1 1 1 args span
    match r.2.get? 0 with
    | some p => (st, { p.2 with not_null := false })
    | none => (st, FullType.invalid)
  | .Max =>
    let r := typed_args st args flags
    let st := arg_cnt r.1 1 1 args span
    match r.2.get? 0 with
    | some p => (st, { p.2 with not_null := false })
    | none => (st, FullType.invalid)
  | .Sum =>
    let r := typed_args st args flags
    let st := arg_cnt r.1 1 1 args span
    match r.2.get? 0 with
    | some p => (st, { p.2 with not_null := false })
    | none => (st, FullType.invalid)
  | .Now => tf st (Ty.Base BaseType.DateTime) [] [BaseType.Integer] args flags span
  | .CurDate => tf st (Ty.Base BaseType.Date) [] [] args flags span
  | .CurrentTimestamp => tf st (Ty.Base BaseType.TimeStamp) [] [BaseType.Integer] args flags span
  | .Concat =>
    let r := typed_args st args flags
    let not_null := r.2.foldl (fun nn p => nn && p.2.not_null) true
    (r.1, FullType.new (Ty.Base BaseType.String) not_null)
  | .Least =>
    let r := typed_args st args flags
    let st := arg_cnt r.1 1 9999 args span
    match r.2.get? 0 with
    | some p =>
      let f := least_fold span p.1 p.2 (r.2.drop 1) st
      let _ := FullType.new f.2.2 true
      (f.1, FullType.new (Ty.Base BaseType.Any) true)
    | none => (st, FullType.new (Ty.Base BaseType.Any) true)
  | .Greatest =>
    let r := typed_args st args flags
    let st := arg_cnt r.1 1 9999 args span
    match r.2.get? 0 with
    | some p =>
      let f := least_fold span p.1 p.2 (r.2.drop 1) st
      let _ := FullType.new f.2.2 true
      (f.1, FullType.new (Ty.Base BaseType.Any) true)
    | none => (st, FullType.new (Ty.Base BaseType.Any) true)
  | .If =>
    let r := typed_args st args flags
    let st := arg_cnt r.1 3 3 args span
    let p0 :=
      match r.2.get? 0 with
      | some p => (ensure_base st p.1.span p.2 BaseType.Bool, true && p.2.not_null)
      | none => (st, true)
    match r.2.get? 1 with
    | some p1 =>
      let not_null := p0.2 && p1.2.not_null
      match r.2.get? 2 with
      | some p2 =>
        let not_null := not_null && p2.2.not_null
        let m := matched_type p0.1 p1.2.t p2.2.t
        match m.2 with
        | some t => (m.1, FullType.new t not_null)
        | none =>
          (m.1.push (((Issue.err Message.incompatibleTypes span).frag
              (Message.ofType p1.2.t) p1.1.span).frag (Message.ofType p2.2.t) p2.1.span),
            FullType.invalid)
      | none => (p0.1, FullType.invalid)
    | none => (p0.1, FullType.invalid)
  | .FromUnixTime =>
    let r := typed_args st args flags
    let st := arg_cnt r.1 1 2 args span
    let p0 :=
      match r.2.get? 0 with
      | some p => (ensure_base st p.1.span p.2 BaseType.Float, true && p.2.not_null)
      | none => (st, true)
    match r.2.get? 1 with
    | some p =>
      let not_null := p0.2 && p.2.not_null
      let st := ensure_base p0.1 p.1.span p.2 BaseType.String
      (st, FullType.new (Ty.Base BaseType.String) not_null)
    | none => (p0.1, FullType.new (Ty.Base BaseType.DateTime) p0.2)
  | .DateFormat => tf st (Ty.Base BaseType.String) [BaseType.DateTime, BaseType.String] [BaseType.String] args flags span
  | .Value =>
    let r := typed_args st args flags
    let st :=
      if !flags.in_on_duplicate_key_update then
        r.1.push (Issue.err Message.valueOnlyInOnDuplicateKeyUpdate span)
      else r.1
    let st := arg_cnt st 1 1 args span
    match r.2.get? 0 with
    | some p => (st, p.2)
    | none => (st, FullType.invalid)
  | .Other =>
    (st.push (Issue.err Message.typingNotImplemented span), FullType.invalid)

end SqlType

namespace SqlType

/-- One output column of a SELECT/UNION/RETURNING (`SelectTypeColumn`). -/
structure SelectTypeColumn where
  name : Option String
  type_ : FullType
  span : Span
deriving DecidableEq, Repr

/-- The output column list of a SELECT/UNION (`SelectType`). -/
structure SelectType where
  columns : List SelectTypeColumn
deriving DecidableEq, Repr

/-- Span join (`join_span`). -/
def Span.join (a b : Span) : Span :=
  (min a.1 b.1, max a.2 b.2)

/-- `opt_span` of a span list: the join of all spans, `none` when empty. -/
def opt_span : List Span → Option Span
  | [] => none
  | s :: rest => some (rest.foldl Span.join s)

/-- Modelled from the spec: the SELECT modifier flags. -/
inductive SelectFlag where
  | All (s : Span)
  | Distinct (s : Span)
  | DistinctRow (s : Span)
  | StraightJoin (s : Span)
  | HighPriority (s : Span)
  | SqlSmallResult (s : Span)
  | SqlBigResult (s : Span)
  | SqlBufferResult (s : Span)
  | SqlNoCache (s : Span)
  | SqlCalcFoundRows (s : Span)
deriving DecidableEq, Repr

/-- Modelled from the spec: an ORDER BY direction. -/
inductive OrderDir where
  | Asc
  | Desc
deriving DecidableEq, Repr

/-- Modelled from the spec: one select-list item: an expression and an
optional alias. -/
structure SelectExpr where
  expr : Expr
  as_ : Option Identifier
deriving DecidableEq, Repr

/-- The span of a select-list item (the join of expression and alias). -/
def SelectExpr.span (e : SelectExpr) : Span :=
  match e.as_ with
  | some a => e.expr.span.join a.span
  | none => e.expr.span

/-- Modelled from the spec: one FROM-clause entry; the reference-clause typer
pushes one reference scope per table/subquery the entry introduces, so the
entry is modelled as carrying those scopes. -/
structure TableReference where
  scopes : List ReferenceType
deriving DecidableEq, Repr

/-- Modelled from the spec: the external reference-clause typer
(`type_reference`): pushes one reference scope per introduced
table/subquery. -/
def type_reference (st : Typer) (r : TableReference) (_is_insert_target : Bool) :
    Typer :=
  { st with reference_types := st.reference_types ++ r.scopes }

/-- Modelled from the spec: a parsed SELECT statement, with the fields the
SELECT typer inspects. -/
structure Select where
  span : Span
  flags : List SelectFlag
  table_references : Option (List TableReference)
  where_ : Option (Expr × Span)
  select_exprs : List SelectExpr
  group_by : Option (Span × List Expr)
  order_by : Option (Span × List (Expr × OrderDir))
  limit : Option (Span × Option Expr × Expr)
deriving DecidableEq, Repr

/-- `resolve_kleene_identifier`: classify the dotted parts of an identifier
select item and emit its output columns (returned in emission order; the
caller folds `add_result` over them), raising resolution diagnostics. -/
def resolve_kleene_identifier (st : Typer) (parts : List IdentifierPart)
    (as_ : Option Identifier) :
    Typer × List (Option String × FullType × Span × Bool) :=
  match parts with
  | [IdentifierPart.Name col] =>
    let cnt := st.reference_types.foldl
      (fun n r => r.columns.foldl (fun n c => if c.1 = col.value then n + 1 else n) n) 0
    let t := st.reference_types.foldl
      (fun t r => r.columns.foldl
        (fun t c => if c.1 = col.value then some c else t) t)
      (none : Option (String × FullType))
    let name := as_.getD col
    if 1 < cnt then
      let issue := st.reference_types.foldl
        (fun iss r => r.columns.foldl
          (fun iss c => if c.1 = col.value then iss.frag Message.definedHere r.span else iss)
          iss)
        (Issue.err Message.ambigiousReference col.span)
      (st.push issue, [(some name.value, FullType.invalid, name.span, as_.isSome)])
    else
      match t with
      | some c => (st, [(some name.value, c.2, name.span, as_.isSome)])
      | none =>
        (st.push (Issue.err Message.unknownIdentifier col.span),
         [(some name.value, FullType.invalid, name.span, as_.isSome)])
  | [IdentifierPart.Star v] =>
    let st :=
      match as_ with
      | some a => st.push (Issue.err Message.asNotSupportedForStar a.span)
      | none => st
    (st, st.reference_types.foldl
      (fun l r => l ++ r.columns.map (fun c => (some c.1, c.2, v, false))) [])
  | [IdentifierPart.Name tbl, IdentifierPart.Name col] =>
    let t := st.reference_types.foldl
      (fun t r =>
        if r.name = some tbl.value then
          r.columns.foldl (fun t c => if c.1 = col.value then some c else t) t
        else t)
      (none : Option (String × FullType))
    let name := as_.getD col
    match t with
    | some c => (st, [(some name.value, c.2, name.span, as_.isSome)])
    | none =>
      (st.push (Issue.err Message.unknownIdentifier col.span),
       [(some name.value, FullType.invalid, name.span, as_.isSome)])
  | [IdentifierPart.Name tbl, IdentifierPart.Star v] =>
    let st :=
      match as_ with
      | some a => st.push (Issue.err Message.asNotSupportedForStar a.span)
      | none => st
    let t := st.reference_types.foldl
      (fun t r => if r.name = some tbl.value then some r else t)
      (none : Option ReferenceType)
    match t with
    | some r => (st, r.columns.map (fun c => (some c.1, c.2, v, false)))
    | none => (st.push (Issue.err Message.unknownTable tbl.span), [])
  | [IdentifierPart.Star v, _] =>
    (st.push (Issue.err Message.notSupportedHere v), [])
  | _ =>
    (st.push (Issue.err Message.invalidIdentifier
      ((opt_span (parts.map (fun p =>
        match p with
        | IdentifierPart.Name i => i.span
        | IdentifierPart.Star s => s))).getD (0, 0))), [])

/-- The accumulator of the select-list loop: the output columns so far, the
aliased columns for the synthetic select-list scope, and the buffered
duplicate-name warnings (extended into the sink after the loop). -/
structure SelAcc where
  result : List (Option String × FullType × Span)
  sref_cols : List (String × FullType)
  buf : List Issue
deriving DecidableEq, Repr

/-- The `add_result` closure of `type_select`: record one output column,
collect it into the synthetic scope when aliased, and buffer one
duplicate-name warning per earlier output column with the same name (only
when the caller requested duplicate checking). -/
def add_result (warn_duplicate : Bool) (acc : SelAcc)
    (e : Option String × FullType × Span × Bool) : SelAcc :=
  match e with
  | (some name, type_, span, as_) =>
    let sref := if as_ then acc.sref_cols ++ [(name, type_)] else acc.sref_cols
    let buf := acc.buf ++ acc.result.filterMap
      (fun r =>
        if some name = r.1 ∧ warn_duplicate then
          some ((Issue.warn (Message.multipleColumnsNamed name) span).frag
            Message.alsoDefinedHere r.2.2)
        else none)
    ⟨acc.result ++ [(some name, type_, span)], sref, buf⟩
  | (none, type_, span, _) =>
    ⟨acc.result ++ [(none, type_, span)], acc.sref_cols, acc.buf⟩

/-- One iteration of the select-list loop: identifiers go through kleene
resolution, any other expression is typed directly and must carry an alias,
else an unnamed-column warning is raised. -/
def select_expr_step (warn_duplicate : Bool) (p : Typer × SelAcc)
    (e : SelectExpr) : Typer × SelAcc :=
  match e.expr.view with
  | ExprView.Identifier parts =>
    let r := resolve_kleene_identifier p.1 parts e.as_
    (r.1, r.2.foldl (add_result warn_duplicate) p.2)
  | ExprView.Other =>
    let r := type_expression p.1 e.expr ExpressionFlags.default BaseType.Any
    match e.as_ with
    | some a => (r.1, add_result warn_duplicate p.2 (some a.value, r.2, a.span, true))
    | none =>
      (r.1.push (Issue.warn Message.unnamedColumnInSelect e.span),
       add_result warn_duplicate p.2 (none, r.2, (0, 0), false))

/-- The SELECT-modifier validation loop: ALL/DISTINCT/DISTINCT ROW/STRAIGHT
JOIN raise "not yet implemented", performance hints are accepted. -/
def select_flags_check (st : Typer) (flags : List SelectFlag) : Typer :=
  flags.foldl
    (fun s f =>
      match f with
      | SelectFlag.All sp => s.push (Issue.err Message.notYetImplemented sp)
      | SelectFlag.Distinct sp => s.push (Issue.err Message.notYetImplemented sp)
      | SelectFlag.DistinctRow sp => s.push (Issue.err Message.notYetImplemented sp)
      | SelectFlag.StraightJoin sp => s.push (Issue.err Message.notYetImplemented sp)
      | _ => s) st

/-- Typing of ORDER BY expressions (no type constraint). -/
def check_order_by (st : Typer) (ob : Option (Span × List (Expr × OrderDir))) :
    Typer :=
  match ob with
  | some (_, es) =>
    es.foldl (fun s e => (type_expression s e.1 ExpressionFlags.default BaseType.Any).1) st
  | none => st

/-- The LIMIT offset/count check shared by `type_select` and `type_union`:
each operand must unify with an unsigned 64-bit integer, else one error. -/
def check_limit_count (st : Typer) (e : Expr) : Typer :=
  let r := type_expression st e ExpressionFlags.default BaseType.Any
  let c := common_type r.1 r.2 (FullType.new Ty.U64 true)
  match c.2 with
  | none => c.1.push (Issue.err (Message.expectedIntegerTypeGot r.2.t) e.span)
  | some _ => c.1

/-- The LIMIT clause check (offset when present, then count). -/
def check_limit (st : Typer) (limit : Option (Span × Option Expr × Expr)) : Typer :=
  match limit with
  | some (_, offset, count) =>
    let st :=
      match offset with
      | some off => check_limit_count st off
      | none => st
    check_limit_count st count
  | none => st

/-- The FROM-clause loop: each table reference goes through the external
reference-clause typer. -/
def type_table_references (st : Typer) (refs : Option (List TableReference)) :
    Typer :=
  match refs with
  | some rs => rs.foldl (fun s r => type_reference s r false) st
  | none => st

/-- The WHERE check: type the condition and require Bool. -/
def check_where (st : Typer) (w : Option (Expr × Span)) : Typer :=
  match w with
  | some w =>
    let r := type_expression st w.1 ExpressionFlags.default BaseType.Any
    ensure_bool r.1 w.1.span r.2
  | none => st

/-- Typing of GROUP BY expressions (no type constraint). -/
def check_group_by (st : Typer) (gb : Option (Span × List Expr)) : Typer :=
  match gb with
  | some g =>
    g.2.foldl (fun s e => (type_expression s e ExpressionFlags.default BaseType.Any).1) st
  | none => st

/-- The body of `type_select` between the scope-stack snapshot and its
restoration: modifier validation, FROM-clause scopes, WHERE (must be Bool),
the select list, the synthetic select-list scope, GROUP BY/ORDER BY/LIMIT. -/
def type_select_inner (st : Typer) (select : Select) (warn_duplicate : Bool) :
    Typer × List (Option String × FullType × Span) :=
  let st := select_flags_check st select.flags
  let st := type_table_references st select.table_references
  let st := check_where st select.where_
  let p := select.select_exprs.foldl (select_expr_step warn_duplicate) (st, ⟨[], [], []⟩)
  let st := { p.1 with issues := p.1.issues ++ p.2.buf }
  let st := { st with reference_types := st.reference_types ++
    [⟨none, (opt_span (select.select_exprs.map SelectExpr.span)).getD (0, 0), p.2.sref_cols⟩] }
  let st := check_group_by st select.group_by
  let st := check_order_by st select.order_by
  let st := check_limit st select.limit
  (st, p.2.result)

/-- `type_select`: snapshot the reference-scope stack, run the body, restore
the snapshot, and return the output column list. -/
def type_select (st : Typer) (select : Select) (warn_duplicate : Bool) :
    Typer × SelectType :=
  let r := type_select_inner st select warn_duplicate
  ({ r.1 with reference_types := st.reference_types },
   ⟨r.2.map (fun x => ⟨x.1, x.2.1, x.2.2⟩)⟩)

end SqlType

namespace SqlType

mutual

/-- Modelled from the spec: a statement reaching the SELECT/UNION typer:
a SELECT, a UNION, or any other statement kind (an upstream-contract
violation at this dispatch point). -/
inductive Statement where
  | Select (s : Select)
  | Union (u : Union)
  | Other (span : Span)

/-- Modelled from the spec: a UNION: a left branch, the remaining branches,
and its own ORDER BY/LIMIT. -/
inductive Union where
  | mk (left : Statement) (withs : List UnionWith)
    (order_by : Option (Span × List (Expr × OrderDir)))
    (limit : Option (Span × Option Expr × Expr))
    (span : Span)

/-- Modelled from the spec: one further UNION branch: its statement and the
span of its UNION keyword. -/
inductive UnionWith where
  | mk (union_statement : Statement) (union_span : Span)

end

/-- The left branch of a UNION. -/
def Union.left : Union → Statement
  | .mk l _ _ _ _ => l

/-- The remaining branches of a UNION. -/
def Union.withs : Union → List UnionWith
  | .mk _ w _ _ _ => w

/-- The ORDER BY clause of a UNION. -/
def Union.order_by : Union → Option (Span × List (Expr × OrderDir))
  | .mk _ _ o _ _ => o

/-- The LIMIT clause of a UNION. -/
def Union.limit : Union → Option (Span × Option Expr × Expr)
  | .mk _ _ _ l _ => l

/-- The span of a UNION. -/
def Union.span : Union → Span
  | .mk _ _ _ _ s => s

/-- The statement of one further UNION branch. -/
def UnionWith.union_statement : UnionWith → Statement
  | .mk s _ => s

/-- The UNION-keyword span of one further UNION branch. -/
def UnionWith.union_span : UnionWith → Span
  | .mk _ s => s

/-- The span of a statement. -/
def Statement.spanOf : Statement → Span
  | .Select s => s.span
  | .Union u => u.span
  | .Other s => s

/-- One position of the UNION column-list reconciliation loop (the body of
`for i in 0..max(...)` in `type_union`): compare the accumulated column and
the new branch's column at index `i`; report name mismatches (naming both
sides, or noting the unnamed side), unify the types (success replaces the
accumulated column's type, failure raises one error citing both types), and
report a column present on only one side. -/
def union_merge_at (st : Typer) (cols cols2 : List SelectTypeColumn) (i : Nat)
    (left union_span stmt_span : Span) : Typer × List SelectTypeColumn :=
  match cols.get? i, cols2.get? i with
  | some l, some r =>
    let st :=
      if l.name ≠ r.name then
        match l.name, r.name with
        | some ln, some rn =>
          st.push (((Issue.err Message.incompatibleNamesInUnion union_span).frag
            (Message.columnIsNamed i ln) left).frag (Message.columnIsNamed i rn) stmt_span)
        | some ln, none =>
          st.push (((Issue.err Message.incompatibleNamesInUnion union_span).frag
            (Message.columnIsNamed i ln) left).frag (Message.columnHasNoName i) stmt_span)
        | none, some rn =>
          st.push (((Issue.err Message.incompatibleNamesInUnion union_span).frag
            (Message.columnHasNoName i) left).frag (Message.columnIsNamed i rn) stmt_span)
        | none, none => st
      else st
    let c := common_type st l.type_ r.type_
    match c.2 with
    | some t => (c.1, cols.set i { l with type_ := t })
    | none =>
      (c.1.push (((Issue.err Message.incompatibleTypesInUnion union_span).frag
        (Message.columnIsOfType i l.type_.t) left).frag
        (Message.columnIsOfType i r.type_.t) stmt_span), cols)
  | some l, none =>
    match l.name with
    | some n =>
      (st.push ((Issue.err Message.incompatibleTypesInUnion union_span).frag
        (Message.columnNamedOnlyOnThisSide i n) left), cols)
    | none =>
      (st.push ((Issue.err Message.incompatibleTypesInUnion union_span).frag
        (Message.columnOnlyOnThisSide i) left), cols)
  | none, some r =>
    match r.name with
    | some n =>
      (st.push ((Issue.err Message.incompatibleTypesInUnion union_span).frag
        (Message.columnNamedOnlyOnThisSide i n) stmt_span), cols)
    | none =>
      (st.push ((Issue.err Message.incompatibleTypesInUnion union_span).frag
        (Message.columnOnlyOnThisSide i) stmt_span), cols)
  | none, none => (st, cols)

/-- The UNION column-list reconciliation loop over all positions up to the
longer side's length. -/
def union_merge (st : Typer) (cols cols2 : List SelectTypeColumn)
    (left union_span stmt_span : Span) : Typer × List SelectTypeColumn :=
  (List.range (max cols.length cols2.length)).foldl
    (fun acc i => union_merge_at acc.1 acc.2 cols2 i left union_span stmt_span)
    (st, cols)

mutual

/-- `type_union_select`: dispatch a UNION branch to `type_select` or
`type_union`; any other statement kind is an internal-consistency violation
reported as a diagnostic with an empty result. -/
def type_union_select (st : Typer) : Statement → Typer × SelectType
  | .Select s => type_select st s true
  | .Union u => type_union st u
  | .Other sp => (st.push (Issue.err Message.internalCompilerError sp), ⟨[]⟩)

/-- `type_union`: type the left branch, fold in each additional branch via
the reconciliation loop, push a synthetic scope exposing the named
accumulated columns, type the UNION's ORDER BY/LIMIT against it, pop it,
and return the accumulated columns. -/
def type_union (st : Typer) : Union → Typer × SelectType
  | .mk left withs order_by limit _ =>
    let r := type_union_select st left
    let f := type_union_withs r.1 r.2 left.spanOf withs
    let st := { f.2.1 with reference_types := f.2.1.reference_types ++
      [⟨none, (opt_span (f.1.columns.map SelectTypeColumn.span)).getD (0, 0),
        f.1.columns.filterMap (fun v => v.name.map (fun n => (n, v.type_)))⟩] }
    let st := check_order_by st order_by
    let st := check_limit st limit
    let st := { st with reference_types := st.reference_types.dropLast }
    (st, f.1)

/-- The fold over the remaining UNION branches: type each branch and
reconcile its column list into the accumulated one, widening the left-hand
span as the source does. -/
def type_union_withs (st : Typer) (t : SelectType) (left : Span) :
    List UnionWith → SelectType × Typer × Span
  | [] => (t, st, left)
  | .mk w_stmt w_union_span :: ws =>
    let r := type_union_select st w_stmt
    let m := union_merge r.1 t.columns r.2.columns left w_union_span w_stmt.spanOf
    type_union_withs m.1 ⟨m.2⟩ (left.join w_stmt.spanOf) ws

end

end SqlType

namespace SqlType

/-- Does the insert yield an auto increment id (`AutoIncrementId`). -/
inductive AutoIncrementId where
  | Yes
  | No
  | Optional
deriving DecidableEq, Repr

/-- Modelled from the spec: INSERT vs REPLACE. -/
inductive InsertReplaceType where
  | Insert (s : Span)
  | Replace (s : Span)
deriving DecidableEq, Repr

/-- Modelled from the spec: statement flags of an INSERT/REPLACE. -/
inductive InsertReplaceFlag where
  | LowPriority (s : Span)
  | HighPriority (s : Span)
  | Delayed (s : Span)
  | Ignore (s : Span)
deriving DecidableEq, Repr

/-- Modelled from the spec: the ON CONFLICT target. -/
inductive OnConflictTarget where
  | Column (name : Identifier)
  | OnConstraint (on_constraint_span : Span)
  | TargetNone
deriving DecidableEq, Repr

/-- Modelled from the spec: the ON CONFLICT action. -/
inductive OnConflictAction where
  | DoNothing (s : Span)
  | DoUpdateSet (sets : List (Identifier × Expr)) (where_ : Option (Span × Expr))
deriving DecidableEq, Repr

/-- Modelled from the spec: an ON CONFLICT clause. -/
structure OnConflict where
  target : OnConflictTarget
  action : OnConflictAction
deriving DecidableEq, Repr

/-- Modelled from the spec: a parsed INSERT/REPLACE statement, with the
fields the INSERT/REPLACE typer inspects. -/
structure InsertReplace where
  type_ : InsertReplaceType
  flags : List InsertReplaceFlag
  table : List Identifier
  columns : List Identifier
  values : Option (Span × List (List Expr))
  select : Option Select
  set : Option (Span × List (Identifier × Span × Expr))
  on_duplicate_key_update : Option (Span × List (Identifier × Span × Expr))
  on_conflict : Option OnConflict
  returning : Option (Span × List SelectExpr)

/-- Modelled from the spec: `type_select_exprs` (called from the RETURNING
check but not among the given sources): type a projection list with the same
column-naming/typing machinery as a SELECT list. -/
def type_select_exprs (st : Typer) (exprs : List SelectExpr) (warn_duplicate : Bool) :
    Typer × List (Option String × FullType × Span) :=
  let p := exprs.foldl (select_expr_step warn_duplicate) (st, ⟨[], [], []⟩)
  ({ p.1 with issues := p.1.issues ++ p.2.buf }, p.2.result)

/-- The assignment check shared (as three identical loop bodies in the
source) by SET, ON DUPLICATE KEY UPDATE and ON CONFLICT ... DO UPDATE SET:
look the left-hand key up in the reference scopes; more than one match
raises one ambiguous-reference error listing every defining scope, exactly
one match types the right-hand expression against the column's type (raising
one mismatch error on failure, propagating placeholder constraints on
success), zero matches raise one unknown-identifier error with the
right-hand expression still typed as `Any`. -/
def check_assignment (st : Typer) (key : Identifier) (value : Expr)
    (flags : ExpressionFlags) : Typer :=
  let cnt := st.reference_types.foldl
    (fun n r => r.columns.foldl (fun n c => if c.1 = key.value then n + 1 else n) n) 0
  let t := st.reference_types.foldl
    (fun t r => r.columns.foldl (fun t c => if c.1 = key.value then some c else t) t)
    (none : Option (String × FullType))
  if 1 < cnt then
    let st := (type_expression st value flags BaseType.Any).1
    let issue := st.reference_types.foldl
      (fun iss r => r.columns.foldl
        (fun iss c => if c.1 = key.value then iss.frag Message.definedHere r.span else iss)
        iss)
      (Issue.err Message.ambiguousReference key.span)
    st.push issue
  else
    match t with
    | some c =>
      let r := type_expression st value flags c.2.base
      let m := matched_type r.1 r.2.t c.2.t
      if m.2.isNone then
        m.1.push (Issue.err (Message.gotTypeExpectedFull r.2 c.2) value.span)
      else
        r.2.t.args_of.foldl (fun s2 p => constrain_arg s2 p.1 p.2.1 c.2) m.1
    | none =>
      let st := (type_expression st value flags BaseType.Any).1
      st.push (Issue.err Message.unknownIdentifier key.span)

/-- One position of the INSERT-from-SELECT comparison: both sides present
unify the types (one two-fragment error on mismatch); a side missing raises
one error on that side; both sides missing is the source's `panic!("ICE")`
branch, modelled as `none`. -/
def insert_select_compare_at (st : Typer) (s : List (FullType × Span))
    (sel_cols : List SelectTypeColumn) (i : Nat) : Option Typer :=
  match s.get? i, sel_cols.get? i with
  | some et, some t =>
    let m := matched_type st t.type_.t et.1.t
    if m.2.isNone then
      some (m.1.push ((Issue.err (Message.gotType t.type_.t) t.span).frag
        (Message.expectedType et.1.t) et.2))
    else some m.1
  | none, some t =>
    some (st.push (Issue.err Message.columnInSelectNotInInsert t.span))
  | some et, none =>
    some (st.push (Issue.err Message.missingColumnInSelect et.2))
  | none, none => none

/-- The INSERT-from-SELECT comparison loop, index-by-index up to the longer
side's length; `none` means the source would have panicked. -/
def insert_select_compare (st : Typer) (s : List (FullType × Span))
    (sel_cols : List SelectTypeColumn) : Option Typer :=
  (List.range (max s.length sel_cols.length)).foldl
    (fun acc i =>
      match acc with
      | none => none
      | some st => insert_select_compare_at st s sel_cols i)
    (some st)

/-- The auto-increment classification at the end of `type_insert_replace`:
`Yes` for a plain INSERT into a table with an auto-increment column,
`Optional` when an IGNORE flag or an ON DUPLICATE KEY UPDATE clause is
present, `No` otherwise. -/
def auto_increment_classification (auto_increment is_insert has_ignore odku : Bool) :
    AutoIncrementId :=
  if auto_increment && is_insert then
    if has_ignore || odku then AutoIncrementId.Optional
    else AutoIncrementId.Yes
  else AutoIncrementId.No

/-- `type_insert_replace`: validate an INSERT/REPLACE statement and compute
its auto-increment classification and optional RETURNING projection;
`none` marks the (unreachable) `panic!("ICE")` of the SELECT-source
comparison. The target-table identifier defaults harmlessly when the table
list is empty (the parser guarantees a target). -/
def type_insert_replace (st : Typer) (ior : InsertReplace) :
    Option (Typer × AutoIncrementId × Option SelectType) :=
  let st := (ior.table.drop 1).foldl
    (fun s x => s.push (Issue.err Message.notYetImplemented x.span)) st
  let t := ior.table.head?.getD ⟨"", (0, 0)⟩
  let sa : Typer × Option (List (FullType × Span)) × Bool :=
    match st.schemas.get t.value with
    | some schema =>
      let st :=
        if schema.view then st.push (Issue.err Message.insertsIntoViewsNotImplemented t.span)
        else st
      let p := ior.columns.foldl
        (fun (acc : Typer × List (FullType × Span)) col =>
          match schema.get_column col.value with
          | some schema_col => (acc.1, acc.2 ++ [(schema_col.type_, col.span)])
          | none => (acc.1.push (Issue.err Message.noSuchColumnInSchema col.span), acc.2))
        (st, [])
      (p.1, some p.2, schema.columns.any (fun c => c.auto_increment))
    | none => (st.push (Issue.err Message.unknownTable t.span), none, false)
  let st := sa.1
  let s := sa.2.1
  let auto_increment := sa.2.2
  let st :=
    match ior.values with
    | some vals =>
      vals.2.foldl
        (fun st row =>
          row.enum.foldl
            (fun st je =>
              match s.bind (fun v => v.get? je.1) with
              | some et =>
                let r := type_expression st je.2 ExpressionFlags.default et.1.base
                let m := matched_type r.1 r.2.t et.1.t
                if m.2.isNone then
                  m.1.push ((Issue.err (Message.gotType r.2.t) je.2.span).frag
                    (Message.expectedType et.1.t) et.2)
                else
                  r.2.t.args_of.foldl (fun s2 p => constrain_arg s2 p.1 p.2.1 et.1) m.1
              | none => (type_expression st je.2 ExpressionFlags.default BaseType.Any).1)
            st)
        st
    | none => st
  let step : Option Typer :=
    match ior.select with
    | some sel =>
      let rsel := type_select st sel true
      match s with
      | some sv => insert_select_compare rsel.1 sv rsel.2.columns
      | none => some rsel.1
    | none => some st
  step.map (fun st =>
    let v := st.reference_types
    let st := { st with reference_types := [] }
    let st : Typer :=
      match st.schemas.get t.value with
      | some s2 =>
        let columns := s2.columns.map (fun c => (c.identifier, c.type_))
        let st := st.reference_types.foldl
          (fun s3 v2 =>
            if v2.name = some t.value then
              s3.push ((Issue.err Message.duplicateDefinitions t.span).frag
                Message.alreadyDefinedHere v2.span)
            else s3)
          st
        { st with reference_types := st.reference_types ++ [⟨some t.value, t.span, columns⟩] }
      | none => st
    let st :=
      match ior.set with
      | some sp =>
        sp.2.foldl (fun s3 kv => check_assignment s3 kv.1 kv.2.2 ExpressionFlags.default) st
      | none => st
    let st :=
      match ior.on_duplicate_key_update with
      | some up =>
        up.2.foldl
          (fun s3 kv => check_assignment s3 kv.1 kv.2.2 (ExpressionFlags.default.with_odku true))
          st
      | none => st
    let st :=
      match ior.on_conflict with
      | some oc =>
        let st :=
          match oc.target with
          | OnConflictTarget.Column name =>
            let tt := st.reference_types.foldl
              (fun t4 r => r.columns.foldl
                (fun t4 c => if c.1 = name.value then some c else t4) t4)
              (none : Option (String × FullType))
            if tt.isNone then st.push (Issue.err Message.unknownIdentifier name.span) else st
          | OnConflictTarget.OnConstraint sp => st.push (Issue.err Message.notYetImplemented sp)
          | OnConflictTarget.TargetNone => st
        match oc.action with
        | OnConflictAction.DoNothing _ => st
        | OnConflictAction.DoUpdateSet sets where_ =>
          let st := sets.foldl
            (fun s3 kv => check_assignment s3 kv.1 kv.2 (ExpressionFlags.default.with_odku true))
            st
          match where_ with
          | some w => (type_expression st w.2 ExpressionFlags.default BaseType.Bool).1
          | none => st
      | none => st
    let ret : Typer × Option SelectType :=
      match ior.returning with
      | some r =>
        let q := type_select_exprs st r.2 true
        (q.1, some (SelectType.mk (q.2.map (fun x => SelectTypeColumn.mk x.1 x.2.1 x.2.2))))
      | none => (st, none)
    let st := ret.1
    let returning_select := ret.2
    let st := { st with reference_types := v }
    let is_insert :=
      match ior.type_ with
      | InsertReplaceType.Insert _ => true
      | InsertReplaceType.Replace _ => false
    let has_ignore := ior.flags.any
      (fun f => match f with | InsertReplaceFlag.Ignore _ => true | _ => false)
    let auto_increment_id := auto_increment_classification auto_increment is_insert
      has_ignore ior.on_duplicate_key_update.isSome
    (st, auto_increment_id, returning_select))

end SqlType

namespace SqlType

theorem Typer.push_issues (st : Typer) (i : Issue) :
    (st.push i).issues = st.issues ++ [i] := rfl

theorem Typer.push_schemas (st : Typer) (i : Issue) :
    (st.push i).schemas = st.schemas := rfl

theorem Typer.push_reference_types (st : Typer) (i : Issue) :
    (st.push i).reference_types = st.reference_types := rfl

theorem constrain_arg_issues (st : Typer) (idx : Nat) (a : ArgType) (t : FullType) :
    (constrain_arg st idx a t).issues = st.issues := rfl

theorem constrain_arg_schemas (st : Typer) (idx : Nat) (a : ArgType) (t : FullType) :
    (constrain_arg st idx a t).schemas = st.schemas := rfl

theorem constrain_arg_reference_types (st : Typer) (idx : Nat) (a : ArgType) (t : FullType) :
    (constrain_arg st idx a t).reference_types = st.reference_types := rfl

theorem foldl_constrain_issues (l : List (Nat × ArgType × Span)) (b : BaseType) :
    ∀ st : Typer,
      (l.foldl (fun s p => constrain_arg s p.1 p.2.1 (FullType.new (Ty.Base b) false)) st).issues
        = st.issues := by
  induction l with
  | nil => intro st; rfl
  | cons h tl ih =>
    intro st
    rw [List.foldl_cons, ih]
    exact constrain_arg_issues _ _ _ _

theorem constrain_args_of_issues (st : Typer) (t : Ty) (b : BaseType) :
    (constrain_args_of st t b).issues = st.issues := by
  unfold constrain_args_of
  exact foldl_constrain_issues _ _ _

theorem matched_type_issues (st : Typer) (t1 t2 : Ty) :
    (matched_type st t1 t2).1.issues = st.issues := by
  unfold matched_type
  split_ifs with h1 h2 h3
  · rfl
  · rfl
  · rfl
  · dsimp only
    split_ifs <;> simp [constrain_args_of_issues]

theorem matched_type_snd (st : Typer) (t1 t2 : Ty) :
    (matched_type st t1 t2).2 = matched_type_res t1 t2 := by
  unfold matched_type matched_type_res
  split_ifs with h1 h2 h3
  · rfl
  · rfl
  · rfl
  · dsimp only
    split_ifs <;> rfl

theorem common_type_issues (st : Typer) (t1 t2 : FullType) :
    (common_type st t1 t2).1.issues = st.issues := by
  unfold common_type
  dsimp only
  split <;> simp [matched_type_issues]

theorem common_type_none_iff (st : Typer) (t1 t2 : FullType) :
    (common_type st t1 t2).2 = none ↔ matched_type_res t1.t t2.t = none := by
  unfold common_type
  dsimp only
  rcases hm : (matched_type st t1.t t2.t).2 with _ | v
  · rw [matched_type_snd] at hm
    simp [hm]
  · rw [matched_type_snd] at hm
    simp [hm]

/-- State extension on the diagnostic sink: the second context's issue list
is the first's with zero or more issues appended. -/
def IssuesExtend (a b : Typer) : Prop :=
  ∃ l, b.issues = a.issues ++ l

theorem IssuesExtend.refl (a : Typer) : IssuesExtend a a :=
  ⟨[], by simp⟩

theorem IssuesExtend.trans {a b c : Typer} (h1 : IssuesExtend a b)
    (h2 : IssuesExtend b c) : IssuesExtend a c := by
  obtain ⟨l1, e1⟩ := h1
  obtain ⟨l2, e2⟩ := h2
  exact ⟨l1 ++ l2, by rw [e2, e1, List.append_assoc]⟩

theorem IssuesExtend.push (a : Typer) (i : Issue) : IssuesExtend a (a.push i) :=
  ⟨[i], rfl⟩

theorem IssuesExtend.of_eq {a b : Typer} (h : b.issues = a.issues) :
    IssuesExtend a b :=
  ⟨[], by simp [h]⟩

theorem IssuesExtend.buf (a : Typer) (l : List Issue) :
    IssuesExtend a { a with issues := a.issues ++ l } :=
  ⟨l, rfl⟩

theorem IssuesExtend.ref_update (a : Typer) (r : List ReferenceType) :
    IssuesExtend a { a with reference_types := r } :=
  ⟨[], by simp⟩

theorem IssuesExtend.foldl {α : Type} (f : Typer → α → Typer)
    (h : ∀ s e, IssuesExtend s (f s e)) :
    ∀ (l : List α) (st : Typer), IssuesExtend st (l.foldl f st) := by
  intro l
  induction l with
  | nil => intro st; exact IssuesExtend.refl st
  | cons x tl ih => intro st; exact (h st x).trans (ih (f st x))

theorem IssuesExtend.foldl_fst {α β : Type} (f : Typer × β → α → Typer × β)
    (h : ∀ q e, IssuesExtend q.1 (f q e).1) :
    ∀ (l : List α) (q : Typer × β), IssuesExtend q.1 (l.foldl f q).1 := by
  intro l
  induction l with
  | nil => intro q; exact IssuesExtend.refl q.1
  | cons x tl ih => intro q; exact (h q x).trans (ih (f q x))

theorem ensure_type_extends (st : Typer) (sp : Span) (g e : FullType) :
    IssuesExtend st (ensure_type st sp g e) := by
  unfold ensure_type
  dsimp only
  split
  · exact (IssuesExtend.of_eq (matched_type_issues st g.t e.t)).trans
      (IssuesExtend.push _ _)
  · exact IssuesExtend.of_eq (matched_type_issues st g.t e.t)

theorem ensure_base_extends (st : Typer) (sp : Span) (g : FullType) (b : BaseType) :
    IssuesExtend st (ensure_base st sp g b) :=
  ensure_type_extends st sp g (FullType.new (Ty.Base b) false)

theorem ensure_bool_extends (st : Typer) (sp : Span) (g : FullType) :
    IssuesExtend st (ensure_bool st sp g) :=
  ensure_base_extends st sp g BaseType.Bool

theorem check_limit_count_extends (st : Typer) (e : Expr) :
    IssuesExtend st (check_limit_count st e) := by
  unfold check_limit_count
  dsimp only
  split
  · exact (IssuesExtend.of_eq (common_type_issues _ _ _)).trans (IssuesExtend.push _ _)
  · exact IssuesExtend.of_eq (common_type_issues _ _ _)

theorem check_limit_extends (st : Typer) (l : Option (Span × Option Expr × Expr)) :
    IssuesExtend st (check_limit st l) := by
  unfold check_limit
  split
  · dsimp only
    split
    · exact (check_limit_count_extends _ _).trans (check_limit_count_extends _ _)
    · exact check_limit_count_extends _ _
  · exact IssuesExtend.refl st

theorem check_order_by_extends (st : Typer) (ob : Option (Span × List (Expr × OrderDir))) :
    IssuesExtend st (check_order_by st ob) := by
  unfold check_order_by
  split
  · exact IssuesExtend.foldl _ (fun s e => IssuesExtend.refl s) _ st
  · exact IssuesExtend.refl st

theorem check_group_by_extends (st : Typer) (gb : Option (Span × List Expr)) :
    IssuesExtend st (check_group_by st gb) := by
  unfold check_group_by
  split
  · exact IssuesExtend.foldl _ (fun s e => IssuesExtend.refl s) _ st
  · exact IssuesExtend.refl st

theorem select_flags_check_extends (st : Typer) (flags : List SelectFlag) :
    IssuesExtend st (select_flags_check st flags) := by
  unfold select_flags_check
  refine IssuesExtend.foldl _ (fun s f => ?_) _ st
  cases f <;> first
    | exact IssuesExtend.push _ _
    | exact IssuesExtend.refl _

theorem type_table_references_extends (st : Typer) (refs : Option (List TableReference)) :
    IssuesExtend st (type_table_references st refs) := by
  unfold type_table_references
  split
  · refine IssuesExtend.foldl _ (fun s r => ?_) _ st
    exact IssuesExtend.of_eq rfl
  · exact IssuesExtend.refl st

theorem check_where_extends (st : Typer) (w : Option (Expr × Span)) :
    IssuesExtend st (check_where st w) := by
  unfold check_where
  split
  · exact ensure_bool_extends _ _ _
  · exact IssuesExtend.refl st

theorem resolve_kleene_extends (st : Typer) (parts : List IdentifierPart)
    (as_ : Option Identifier) :
    IssuesExtend st (resolve_kleene_identifier st parts as_).1 := by
  unfold resolve_kleene_identifier
  dsimp only
  repeat' split
  all_goals first
    | exact IssuesExtend.refl _
    | exact IssuesExtend.push _ _
    | exact (IssuesExtend.push _ _).trans (IssuesExtend.push _ _)

theorem select_expr_step_extends (warn : Bool) (q : Typer × SelAcc) (e : SelectExpr) :
    IssuesExtend q.1 (select_expr_step warn q e).1 := by
  unfold select_expr_step
  dsimp only
  repeat' split
  all_goals first
    | exact resolve_kleene_extends _ _ _
    | exact IssuesExtend.refl _
    | exact IssuesExtend.push _ _

theorem type_select_inner_extends (st : Typer) (select : Select) (warn : Bool) :
    IssuesExtend st (type_select_inner st select warn).1 := by
  unfold type_select_inner
  dsimp only
  refine ((((((((select_flags_check_extends st select.flags).trans
    (type_table_references_extends _ select.table_references)).trans
    (check_where_extends _ select.where_)).trans
    (IssuesExtend.foldl_fst _ (select_expr_step_extends warn) select.select_exprs _)).trans
    (IssuesExtend.buf _ _)).trans
    (IssuesExtend.ref_update _ _)).trans
    (check_group_by_extends _ select.group_by)).trans
    (check_order_by_extends _ select.order_by)).trans
    (check_limit_extends _ select.limit)

end SqlType

namespace SqlType

/-- An empty typing context over an empty schema catalog, used for concrete
instantiations. -/
def st0 : Typer :=
  ⟨[], ⟨[]⟩, [], []⟩

/-- A concrete Integer-typed argument expression. -/
def int_expr : Expr :=
  ⟨ExprView.Other, FullType.new (Ty.Base BaseType.Integer) true, (1, 2)⟩

/-- A concrete String-typed argument expression. -/
def str_expr : Expr :=
  ⟨ExprView.Other, FullType.new (Ty.Base BaseType.String) true, (3, 4)⟩

/-- The claim-side reading of the placeholder table: the stored type of the
first entry keyed by the positional index (mirroring the `find` in
`constrain_arg`). -/
def find_arg (st : Typer) (idx : Nat) : Option FullType :=
  (st.arg_types.find? (fun p => p.1 = ArgumentKey.Index idx)).map (fun p => p.2)

/-- Arity diagnostics are exactly those produced by `arg_cnt`. -/
def is_arity_issue (i : Issue) : Bool :=
  match i.message with
  | Message.expectedArguments _ _ => true
  | Message.expectedArgumentsBetween _ _ _ => true
  | _ => false

/-- The number of arity diagnostics in an issue list. -/
def arity_count (l : List Issue) : Nat :=
  l.countP (fun i => is_arity_issue i)

/-- Argument-type-mismatch diagnostics are those produced by `ensure_type`. -/
def is_mismatch_issue (i : Issue) : Bool :=
  match i.message with
  | Message.expectedTypeGot _ _ => true
  | _ => false

/-- The number of argument-type-mismatch diagnostics in an issue list. -/
def mismatch_count (l : List Issue) : Nat :=
  l.countP (fun i => is_mismatch_issue i)

/-- The left operand's base after resolving an `Any` wildcard against the
right operand. -/
def resolved_base1 (t1 t2 : Ty) : BaseType :=
  if t1.base = BaseType.Any then t2.base else t1.base

/-- The right operand's base after resolving an `Any` wildcard (against the
already-resolved left base, as the source does). -/
def resolved_base2 (t1 t2 : Ty) : BaseType :=
  if t2.base = BaseType.Any then resolved_base1 t1 t2 else t2.base

theorem matched_type_res_both_invalid (t1 t2 : Ty)
    (h : t1 = Ty.Invalid ∧ t2 = Ty.Invalid) :
    matched_type_res t1 t2 = some Ty.Invalid := by
  obtain ⟨h1, h2⟩ := h
  subst h1; subst h2
  decide

theorem matched_type_res_null_left (t1 t2 : Ty) (h : t1 = Ty.Null) :
    matched_type_res t1 t2 = some t2 := by
  subst h
  simp [matched_type_res]

theorem matched_type_res_null_right (t1 t2 : Ty) (h1 : t1 ≠ Ty.Null)
    (h2 : t2 = Ty.Null) :
    matched_type_res t1 t2 = some t1 := by
  subst h2
  simp [matched_type_res, h1]

theorem matched_type_res_mismatch (t1 t2 : Ty)
    (hni : ¬(t1 = Ty.Invalid ∧ t2 = Ty.Invalid)) (hn1 : t1 ≠ Ty.Null)
    (hn2 : t2 ≠ Ty.Null) (hne : resolved_base1 t1 t2 ≠ resolved_base2 t1 t2) :
    matched_type_res t1 t2 = none := by
  unfold matched_type_res
  rw [if_neg hni, if_neg hn1, if_neg hn2]
  dsimp only
  exact if_pos hne

theorem matched_type_res_match (t1 t2 : Ty)
    (hni : ¬(t1 = Ty.Invalid ∧ t2 = Ty.Invalid)) (hn1 : t1 ≠ Ty.Null)
    (hn2 : t2 ≠ Ty.Null) (heq : resolved_base1 t1 t2 = resolved_base2 t1 t2) :
    ∃ r, matched_type_res t1 t2 = some r ∧ r.base = resolved_base1 t1 t2 := by
  unfold matched_type_res
  rw [if_neg hni, if_neg hn1, if_neg hn2]
  dsimp only
  rw [if_neg (fun hne => hne heq)]
  unfold resolved_base1
  split_ifs <;> exact ⟨_, rfl, rfl⟩

theorem ty_base_any_ne_invalid (t : Ty) (h : t.base = BaseType.Any) :
    t ≠ Ty.Invalid := by
  intro he
  subst he
  simp [Ty.base] at h

theorem ty_base_any_ne_null (t : Ty) (h : t.base = BaseType.Any) :
    t ≠ Ty.Null := by
  intro he
  subst he
  simp [Ty.base] at h

theorem matched_type_res_any_left (t1 t2 : Ty) (hA : t1.base = BaseType.Any)
    (hn2 : t2 ≠ Ty.Null) :
    ∃ r, matched_type_res t1 t2 = some r ∧ r.base = t2.base := by
  have hr1 : resolved_base1 t1 t2 = t2.base := by
    unfold resolved_base1
    rw [if_pos hA]
  have heq : resolved_base1 t1 t2 = resolved_base2 t1 t2 := by
    unfold resolved_base2
    split_ifs with h
    · rfl
    · rw [hr1]
  obtain ⟨r, hm, hb⟩ := matched_type_res_match t1 t2
    (fun hp => ty_base_any_ne_invalid t1 hA hp.1) (ty_base_any_ne_null t1 hA) hn2 heq
  exact ⟨r, hm, by rw [hb, hr1]⟩

/-- C1 (amended): `matched_type` applies the unification rules in order:
both `Invalid` give `Invalid`; either `Null` gives the other operand's type;
bases that differ after resolving `Any` wildcards give no match; otherwise
the result has the common resolved base. In particular `Null` unified with
any type X yields X, and `Any` unified with any non-`Null` type X yields a
type with X's base. -/
theorem matched_type_rules (st : Typer) (t1 t2 : Ty) :
    ((t1 = Ty.Invalid ∧ t2 = Ty.Invalid) → (matched_type st t1 t2).2 = some Ty.Invalid)
    ∧ (t1 = Ty.Null → (matched_type st t1 t2).2 = some t2)
    ∧ (t1 ≠ Ty.Null → t2 = Ty.Null → (matched_type st t1 t2).2 = some t1)
    ∧ (¬(t1 = Ty.Invalid ∧ t2 = Ty.Invalid) → t1 ≠ Ty.Null → t2 ≠ Ty.Null →
        resolved_base1 t1 t2 ≠ resolved_base2 t1 t2 → (matched_type st t1 t2).2 = none)
    ∧ (¬(t1 = Ty.Invalid ∧ t2 = Ty.Invalid) → t1 ≠ Ty.Null → t2 ≠ Ty.Null →
        resolved_base1 t1 t2 = resolved_base2 t1 t2 →
        ∃ r, (matched_type st t1 t2).2 = some r ∧ r.base = resolved_base1 t1 t2)
    ∧ (t1.base = BaseType.Any → t2 ≠ Ty.Null →
        ∃ r, (matched_type st t1 t2).2 = some r ∧ r.base = t2.base) := by
  rw [matched_type_snd]
  exact ⟨matched_type_res_both_invalid t1 t2,
    fun h => matched_type_res_null_left t1 t2 h,
    fun h1 h2 => matched_type_res_null_right t1 t2 h1 h2,
    fun a b c d => matched_type_res_mismatch t1 t2 a b c d,
    fun a b c d => matched_type_res_match t1 t2 a b c d,
    fun a b => matched_type_res_any_left t1 t2 a b⟩

/-- C1 (counterexample): unifying an `Any`-based type with `Null` yields the
`Any` operand, whose base is not `Null`'s base — so "`Any` unified with any
type X yields a type with X's base" fails at X = `Null`. -/
theorem matched_type_any_null_cx :
    (matched_type st0 (Ty.Base BaseType.Any) Ty.Null).2 = some (Ty.Base BaseType.Any)
    ∧ (Ty.Base BaseType.Any).base ≠ Ty.Null.base := by
  decide

/-- C1 witness: `Null` unified with Integer yields Integer. -/
theorem matched_type_rules_witness :
    (matched_type st0 Ty.Null (Ty.Base BaseType.Integer)).2 =
      some (Ty.Base BaseType.Integer) :=
  (matched_type_rules st0 Ty.Null (Ty.Base BaseType.Integer)).2.1 rfl

end SqlType

namespace SqlType

theorem find_constrain_go (idx : Nat) (a : ArgType) (t : FullType) :
    ∀ (l : List (ArgumentKey × FullType)) (ft : FullType),
      (l.find? (fun p => p.1 = ArgumentKey.Index idx)).map (fun p => p.2) = some ft →
      ((constrain_go idx a t l).find? (fun p => p.1 = ArgumentKey.Index idx)).map
          (fun p => p.2) = some (constrain_upd a t ft) := by
  intro l
  induction l with
  | nil => intro ft h; simp [List.find?] at h
  | cons p tl ih =>
    obtain ⟨k, v⟩ := p
    intro ft h
    by_cases hk : k = ArgumentKey.Index idx
    · rw [List.find?_cons_of_pos _ (by simp [hk])] at h
      simp only [Option.map_some'] at h
      simp only [constrain_go, if_pos hk]
      rw [List.find?_cons_of_pos _ (by simp [hk])]
      simp only [Option.some.injEq] at h
      simp [h]
    · rw [List.find?_cons_of_neg _ (by simp [hk])] at h
      simp only [constrain_go, if_neg hk]
      rw [List.find?_cons_of_neg _ (by simp [hk])]
      exact ih ft h

theorem find_arg_constrain (st : Typer) (idx : Nat) (a : ArgType) (t ft : FullType)
    (h : find_arg st idx = some ft) :
    find_arg (constrain_arg st idx a t) idx = some (constrain_upd a t ft) :=
  find_constrain_go idx a t st.arg_types ft h

/-- C2 (amended): once the list-expansion flag is set on the stored type of a
placeholder, a subsequent `constrain_arg` call for the same index leaves it
set exactly when the call's kind is `ListHack`, or its type carries the flag
itself, or its type has base `Any` while the stored base is non-`Any` (so
the stored entry is not overwritten); a non-`ListHack` call whose flag-clear
type overwrites the entry clears the flag. -/
theorem constrain_arg_list_hack (st : Typer) (idx : Nat) (a : ArgType)
    (t ft : FullType) (hf : find_arg st idx = some ft) (hset : ft.list_hack = true) :
    ∃ ft2, find_arg (constrain_arg st idx a t) idx = some ft2 ∧
      (ft2.list_hack = true ↔
        (a = ArgType.ListHack ∨ t.list_hack = true ∨
          (t.base = BaseType.Any ∧ ft.base ≠ BaseType.Any))) := by
  refine ⟨constrain_upd a t ft, find_arg_constrain st idx a t ft hf, ?_⟩
  unfold constrain_upd
  by_cases ha : a = ArgType.ListHack
  · simp [ha]
  · by_cases hb : t.base ≠ BaseType.Any ∨ ft.base = BaseType.Any
    · rw [if_pos hb, if_neg ha]
      constructor
      · intro hl
        exact Or.inr (Or.inl hl)
      · rintro (h1 | h2 | ⟨h3, h4⟩)
        · exact absurd h1 ha
        · exact h2
        · rcases hb with hb1 | hb2
          · exact absurd h3 hb1
          · exact absurd hb2 h4
    · rw [if_neg hb, if_neg ha]
      push_neg at hb
      simp [hset, hb.1, hb.2]

/-- C2 (counterexample): a `ListHack` call sets the flag for index 0, and a
later non-`ListHack`, non-`Any` call for the same index clears it — the flag
does not survive every subsequent `constrain_arg` call. -/
theorem constrain_arg_clears_list_hack_cx :
    (find_arg (constrain_arg st0 0 ArgType.ListHack
        (FullType.new (Ty.Base BaseType.Integer) true)) 0).map FullType.list_hack
      = some true
    ∧ (find_arg (constrain_arg (constrain_arg st0 0 ArgType.ListHack
        (FullType.new (Ty.Base BaseType.Integer) true)) 0 ArgType.Normal
        (FullType.new (Ty.Base BaseType.String) true)) 0).map FullType.list_hack
      = some false := by
  decide

/-- C2 witness: with the flag set on a stored Integer entry, a later
`Normal`-kind String observation (flag clear, non-`Any` base) yields a
stored entry whose flag is cleared. -/
theorem constrain_arg_list_hack_witness :
    find_arg (constrain_arg st0 0 ArgType.ListHack
        (FullType.new (Ty.Base BaseType.Integer) true)) 0 =
      some ⟨Ty.Base BaseType.Integer, true, true⟩
    ∧ (⟨Ty.Base BaseType.Integer, true, true⟩ : FullType).list_hack = true
    ∧ ∃ ft2, find_arg (constrain_arg (constrain_arg st0 0 ArgType.ListHack
        (FullType.new (Ty.Base BaseType.Integer) true)) 0 ArgType.Normal
        (FullType.new (Ty.Base BaseType.String) true)) 0 = some ft2 ∧
        (ft2.list_hack = true ↔
          (ArgType.Normal = ArgType.ListHack ∨
            (FullType.new (Ty.Base BaseType.String) true).list_hack = true ∨
            ((FullType.new (Ty.Base BaseType.String) true).base = BaseType.Any ∧
              (⟨Ty.Base BaseType.Integer, true, true⟩ : FullType).base ≠ BaseType.Any))) :=
  ⟨by decide, by decide,
    constrain_arg_list_hack _ 0 ArgType.Normal _ _ (by decide) (by decide)⟩

/-- C3 (amended): LEAST/GREATEST discards its unified-type branch and always
returns the fixed full type (base `Any`, not-null set), independent of the
argument types. -/
theorem least_greatest_returns_not_null_any (st : Typer) (args : List Expr)
    (span : Span) (flags : ExpressionFlags) (h : args ≠ []) :
    (type_function st Function.Least args span flags).2 =
        FullType.new (Ty.Base BaseType.Any) true
    ∧ (type_function st Function.Greatest args span flags).2 =
        FullType.new (Ty.Base BaseType.Any) true := by
  cases args with
  | nil => exact absurd rfl h
  | cons a rest => exact ⟨rfl, rfl⟩

/-- C3 (counterexample): the LEAST of a single not-null Integer argument has
the not-null flag set — the result is not nullable as claimed. -/
theorem least_result_not_nullable_cx :
    (type_function st0 Function.Least [int_expr] (0, 0) ExpressionFlags.default).2 =
      ⟨Ty.Base BaseType.Any, true, false⟩ := by
  decide

/-- C3 witness: a one-argument LEAST/GREATEST call returns the fixed
not-null `Any` type. -/
theorem least_greatest_returns_not_null_any_witness :
    (type_function st0 Function.Least [int_expr] (0, 0) ExpressionFlags.default).2 =
        FullType.new (Ty.Base BaseType.Any) true
    ∧ (type_function st0 Function.Greatest [int_expr] (0, 0) ExpressionFlags.default).2 =
        FullType.new (Ty.Base BaseType.Any) true :=
  least_greatest_returns_not_null_any st0 [int_expr] (0, 0) ExpressionFlags.default
    (by decide)

end SqlType

namespace SqlType

theorem frag_fold_length (hi : Nat) :
    ∀ (l : List (Nat × Expr)) (i : Issue),
      (l.foldl (fun acc p => acc.frag (Message.argument (hi + p.1)) p.2.span) i).frags.length
        = i.frags.length + l.length := by
  intro l
  induction l with
  | nil => intro i; rfl
  | cons x tl ih =>
    intro i
    rw [List.foldl_cons, ih]
    simp [Issue.frag]
    omega

theorem frag_fold_message (hi : Nat) :
    ∀ (l : List (Nat × Expr)) (i : Issue),
      (l.foldl (fun acc p => acc.frag (Message.argument (hi + p.1)) p.2.span) i).message
        = i.message := by
  intro l
  induction l with
  | nil => intro i; rfl
  | cons x tl ih => intro i; rw [List.foldl_cons, ih]; rfl

theorem arg_cnt_in_range (st : Typer) (lo hi : Nat) (args : List Expr) (span : Span)
    (h : lo ≤ args.length ∧ args.length ≤ hi) :
    arg_cnt st lo hi args span = st := by
  unfold arg_cnt
  rw [if_pos h]

theorem arg_cnt_out_of_range (st : Typer) (lo hi : Nat) (args : List Expr)
    (span : Span) (h : ¬(lo ≤ args.length ∧ args.length ≤ hi)) :
    ∃ i, (arg_cnt st lo hi args span).issues = st.issues ++ [i]
      ∧ is_arity_issue i = true ∧ is_mismatch_issue i = false
      ∧ i.frags.length = args.length - hi := by
  unfold arg_cnt
  rw [if_neg h]
  dsimp only
  refine ⟨_, rfl, ?_, ?_, ?_⟩
  · rw [is_arity_issue, frag_fold_message]
    split_ifs <;> rfl
  · rw [is_mismatch_issue, frag_fold_message]
    split_ifs <;> rfl
  · rw [frag_fold_length]
    split_ifs <;> simp [Issue.err, List.enum_length]

theorem ensure_type_issues (st : Typer) (sp : Span) (g e : FullType) :
    (ensure_type st sp g e).issues = st.issues ++
      (if matched_type_res g.t e.t = none then
        [Issue.err (Message.expectedTypeGot e.t g.t) sp] else []) := by
  unfold ensure_type
  dsimp only
  rw [matched_type_snd]
  rcases hm : matched_type_res g.t e.t with _ | v
  · simp [hm, Typer.push_issues, matched_type_issues]
  · simp [hm, matched_type_issues]

theorem foldl_type_expression_fst (fl : ExpressionFlags) (bt : BaseType) :
    ∀ (l : List Expr) (st : Typer),
      l.foldl (fun s a => (type_expression s a fl bt).1) st = st := by
  intro l
  induction l with
  | nil => intro st; rfl
  | cons x tl ih => intro st; rw [List.foldl_cons]; exact ih st

theorem tf_args_issues :
    ∀ (ets : List BaseType) (args : List Expr) (st : Typer) (nn : Bool)
      (flags : ExpressionFlags),
      ∃ l, (tf_args st nn ets args flags).1.issues = st.issues ++ l
        ∧ arity_count l = 0 := by
  intro ets
  induction ets with
  | nil =>
    intro args st nn flags
    exact ⟨[], by simp [tf_args], by simp [arity_count]⟩
  | cons et ets ih =>
    intro args st nn flags
    cases args with
    | nil => exact ⟨[], by simp [tf_args], by simp [arity_count]⟩
    | cons a rest =>
      obtain ⟨l2, h2, c2⟩ := ih rest (ensure_base st a.span a.etyp et)
        (nn && a.etyp.not_null) flags
      refine ⟨(if matched_type_res a.etyp.t (Ty.Base et) = none then
          [Issue.err (Message.expectedTypeGot (Ty.Base et) a.etyp.t) a.span]
        else []) ++ l2, ?_, ?_⟩
      · show (tf_args (ensure_base st a.span a.etyp et) (nn && a.etyp.not_null)
            ets rest flags).1.issues = _
        rw [h2]
        have hb : (ensure_base st a.span a.etyp et).issues = st.issues ++
            (if matched_type_res a.etyp.t (Ty.Base et) = none then
              [Issue.err (Message.expectedTypeGot (Ty.Base et) a.etyp.t) a.span]
            else []) := ensure_type_issues st a.span a.etyp _
        rw [hb, List.append_assoc]
      · rw [arity_count, List.countP_append]
        have : (if matched_type_res a.etyp.t (Ty.Base et) = none then
            [Issue.err (Message.expectedTypeGot (Ty.Base et) a.etyp.t) a.span]
          else []).countP (fun i => is_arity_issue i) = 0 := by
          split_ifs <;> rfl
        rw [this]
        simpa [arity_count] using c2

/-- C4: a declarative-form signature with required base types `req` and
optional base types `opt` raises zero arity errors for any argument count in
`[req.length, req.length + opt.length]` and exactly one otherwise, and any
arity error it raises carries one labelled fragment per surplus argument
beyond the maximum. -/
theorem tf_arity_spec (st : Typer) (rt : Ty) (req opt : List BaseType)
    (args : List Expr) (flags : ExpressionFlags) (span : Span) :
    ∃ l, (tf st rt req opt args flags span).1.issues = st.issues ++ l
      ∧ arity_count l =
        (if req.length ≤ args.length ∧ args.length ≤ req.length + opt.length
          then 0 else 1)
      ∧ ∀ i ∈ l, is_arity_issue i = true →
          i.frags.length = args.length - (req.length + opt.length) := by
  unfold tf
  dsimp only
  rw [foldl_type_expression_fst]
  by_cases hr : req.length ≤ args.length ∧ args.length ≤ req.length + opt.length
  · rw [arg_cnt_in_range st _ _ _ _ hr]
    obtain ⟨l1, h1, c1⟩ := tf_args_issues req args st true flags
    obtain ⟨l2, h2, c2⟩ := tf_args_issues opt (tf_args st true req args flags).2.2
      (tf_args st true req args flags).1 (tf_args st true req args flags).2.1 flags
    refine ⟨l1 ++ l2, ?_, ?_, ?_⟩
    · rw [h2, h1, List.append_assoc]
    · rw [if_pos hr, arity_count, List.countP_append]
      rw [arity_count] at c1 c2
      omega
    · intro i hi hai
      rw [arity_count, List.countP_eq_zero] at c1 c2
      rcases List.mem_append.mp hi with hm | hm
      · exact absurd (by simpa using hai) (c1 i hm)
      · exact absurd (by simpa using hai) (c2 i hm)
  · obtain ⟨i0, hout, har, _, hfr⟩ := arg_cnt_out_of_range st req.length
      (req.length + opt.length) args span hr
    obtain ⟨l1, h1, c1⟩ := tf_args_issues req args (arg_cnt st req.length
      (req.length + opt.length) args span) true flags
    obtain ⟨l2, h2, c2⟩ := tf_args_issues opt
      (tf_args (arg_cnt st req.length (req.length + opt.length) args span)
        true req args flags).2.2
      (tf_args (arg_cnt st req.length (req.length + opt.length) args span)
        true req args flags).1
      (tf_args (arg_cnt st req.length (req.length + opt.length) args span)
        true req args flags).2.1 flags
    refine ⟨[i0] ++ (l1 ++ l2), ?_, ?_, ?_⟩
    · rw [h2, h1, hout]
      simp [List.append_assoc]
    · rw [if_neg hr, arity_count, List.countP_append, List.countP_append]
      rw [arity_count] at c1 c2
      rw [c1, c2]
      simp [List.countP_cons, har]
    · intro i hi hai
      rw [arity_count, List.countP_eq_zero] at c1 c2
      rcases List.mem_append.mp hi with hm | hm
      · rw [List.mem_singleton.mp hm]
        exact hfr
      · rcases List.mem_append.mp hm with hm2 | hm2
        · exact absurd (by simpa using hai) (c1 i hm2)
        · exact absurd (by simpa using hai) (c2 i hm2)

/-- C4 witness: one required and one optional argument with three arguments
supplied — exactly one arity error, carrying one fragment for the single
surplus argument. -/
theorem tf_arity_spec_witness :
    ∃ l, (tf st0 (Ty.Base BaseType.String) [BaseType.String] [BaseType.Integer]
        [str_expr, int_expr, str_expr] ExpressionFlags.default (9, 9)).1.issues =
        st0.issues ++ l
      ∧ arity_count l =
        (if [BaseType.String].length ≤ ([str_expr, int_expr, str_expr] : List Expr).length
            ∧ ([str_expr, int_expr, str_expr] : List Expr).length ≤
              [BaseType.String].length + [BaseType.Integer].length
          then 0 else 1)
      ∧ ∀ i ∈ l, is_arity_issue i = true →
          i.frags.length = ([str_expr, int_expr, str_expr] : List Expr).length -
            ([BaseType.String].length + [BaseType.Integer].length) :=
  tf_arity_spec st0 (Ty.Base BaseType.String) [BaseType.String] [BaseType.Integer]
    [str_expr, int_expr, str_expr] ExpressionFlags.default (9, 9)

end SqlType

namespace SqlType

theorem ensure_base_issues (st : Typer) (sp : Span) (g : FullType) (b : BaseType) :
    (ensure_base st sp g b).issues = st.issues ++
      (if matched_type_res g.t (Ty.Base b) = none then
        [Issue.err (Message.expectedTypeGot (Ty.Base b) g.t) sp] else []) :=
  ensure_type_issues st sp g (FullType.new (Ty.Base b) false)

theorem ensure_base_fold_issues (b : BaseType) :
    ∀ (l : List (Expr × FullType)) (st : Typer),
      ∃ out, (l.foldl (fun s p => ensure_base s p.1.span p.2 b) st).issues =
          st.issues ++ out
        ∧ arity_count out = 0
        ∧ mismatch_count out =
            l.countP (fun p => (matched_type_res p.2.t (Ty.Base b)).isNone) := by
  intro l
  induction l with
  | nil =>
    intro st
    exact ⟨[], by simp, by simp [arity_count], by simp [mismatch_count]⟩
  | cons p tl ih =>
    intro st
    obtain ⟨out2, h2, a2, m2⟩ := ih (ensure_base st p.1.span p.2 b)
    refine ⟨(if matched_type_res p.2.t (Ty.Base b) = none then
        [Issue.err (Message.expectedTypeGot (Ty.Base b) p.2.t) p.1.span]
      else []) ++ out2, ?_, ?_, ?_⟩
    · rw [List.foldl_cons, h2, ensure_base_issues, List.append_assoc]
    · rw [arity_count, List.countP_append]
      rw [arity_count] at a2
      have : (if matched_type_res p.2.t (Ty.Base b) = none then
          [Issue.err (Message.expectedTypeGot (Ty.Base b) p.2.t) p.1.span]
        else []).countP (fun i => is_arity_issue i) = 0 := by
        split_ifs <;> rfl
      rw [this, a2]
    · rw [mismatch_count, List.countP_append, List.countP_cons]
      rw [mismatch_count] at m2
      rw [m2]
      have : (if matched_type_res p.2.t (Ty.Base b) = none then
          [Issue.err (Message.expectedTypeGot (Ty.Base b) p.2.t) p.1.span]
        else []).countP (fun i => is_mismatch_issue i) =
          (if (matched_type_res p.2.t (Ty.Base b)).isNone = true then 1 else 0) := by
        rcases hm : matched_type_res p.2.t (Ty.Base b) with _ | v <;> (simp [hm]; try rfl)
      rw [this]
      omega

theorem countP_map_pairs (q : Expr × FullType → Bool) :
    ∀ (args : List Expr),
      (args.map (fun a => (a, a.etyp))).countP q =
        args.countP (fun a => q (a, a.etyp)) := by
  intro args
  induction args with
  | nil => rfl
  | cons a tl ih => simp [List.countP_cons, ih]

/-- C5 (amended): JSON_EXTRACT raises zero arity errors for argument counts
between 2 and 999 and exactly one otherwise; JSON_VALUE raises zero arity
errors only for exactly 2 arguments and exactly one otherwise; every
argument is checked against String via the unification core, with one type
error per argument whose type does not unify with String; and both calls
always return nullable JSON (base JSON, not-null cleared). -/
theorem json_extract_value_spec (st : Typer) (args : List Expr) (span : Span)
    (flags : ExpressionFlags) :
    ((type_function st Function.JsonExtract args span flags).2 =
        FullType.new Ty.JSON false)
    ∧ ((type_function st Function.JsonValue args span flags).2 =
        FullType.new Ty.JSON false)
    ∧ (∃ l, (type_function st Function.JsonExtract args span flags).1.issues =
          st.issues ++ l
        ∧ arity_count l = (if 2 ≤ args.length ∧ args.length ≤ 999 then 0 else 1)
        ∧ mismatch_count l = args.countP
            (fun a => (matched_type_res a.etyp.t (Ty.Base BaseType.String)).isNone))
    ∧ (∃ l, (type_function st Function.JsonValue args span flags).1.issues =
          st.issues ++ l
        ∧ arity_count l = (if 2 ≤ args.length ∧ args.length ≤ 2 then 0 else 1)
        ∧ mismatch_count l = args.countP
            (fun a => (matched_type_res a.etyp.t (Ty.Base BaseType.String)).isNone)) := by
  refine ⟨rfl, rfl, ?_, ?_⟩
  · show ∃ l, ((args.map (fun a => (a, a.etyp))).foldl
        (fun s p => ensure_base s p.1.span p.2 BaseType.String)
        (arg_cnt st 2 999 args span)).issues = st.issues ++ l ∧ _ ∧ _
    obtain ⟨out, hout, ha, hm⟩ := ensure_base_fold_issues BaseType.String
      (args.map (fun a => (a, a.etyp))) (arg_cnt st 2 999 args span)
    by_cases hr : 2 ≤ args.length ∧ args.length ≤ 999
    · rw [arg_cnt_in_range st 2 999 args span hr] at hout ⊢
      refine ⟨out, hout, ?_, ?_⟩
      · rw [if_pos hr, ha]
      · rw [hm, countP_map_pairs]
    · obtain ⟨i0, h0, hai, hmi, _⟩ := arg_cnt_out_of_range st 2 999 args span hr
      refine ⟨[i0] ++ out, ?_, ?_, ?_⟩
      · rw [hout, h0]
        simp [List.append_assoc]
      · rw [if_neg hr, arity_count, List.countP_append]
        rw [arity_count] at ha
        rw [ha]
        simp [List.countP_cons, hai]
      · rw [mismatch_count, List.countP_append]
        rw [mismatch_count] at hm
        rw [hm, countP_map_pairs]
        simp [List.countP_cons, hmi]
  · show ∃ l, ((args.map (fun a => (a, a.etyp))).foldl
        (fun s p => ensure_base s p.1.span p.2 BaseType.String)
        (arg_cnt st 2 2 args span)).issues = st.issues ++ l ∧ _ ∧ _
    obtain ⟨out, hout, ha, hm⟩ := ensure_base_fold_issues BaseType.String
      (args.map (fun a => (a, a.etyp))) (arg_cnt st 2 2 args span)
    by_cases hr : 2 ≤ args.length ∧ args.length ≤ 2
    · rw [arg_cnt_in_range st 2 2 args span hr] at hout ⊢
      refine ⟨out, hout, ?_, ?_⟩
      · rw [if_pos hr, ha]
      · rw [hm, countP_map_pairs]
    · obtain ⟨i0, h0, hai, hmi, _⟩ := arg_cnt_out_of_range st 2 2 args span hr
      refine ⟨[i0] ++ out, ?_, ?_, ?_⟩
      · rw [hout, h0]
        simp [List.append_assoc]
      · rw [if_neg hr, arity_count, List.countP_append]
        rw [arity_count] at ha
        rw [ha]
        simp [List.countP_cons, hai]
      · rw [mismatch_count, List.countP_append]
        rw [mismatch_count] at hm
        rw [hm, countP_map_pairs]
        simp [List.countP_cons, hmi]

/-- C5 (counterexample): JSON_VALUE with three String arguments raises an
arity error — not every call with at least two arguments is arity-clean. -/
theorem json_value_three_args_arity_cx :
    arity_count (type_function st0 Function.JsonValue [str_expr, str_expr, str_expr]
      (0, 0) ExpressionFlags.default).1.issues = 1 := by
  decide

/-- C5 witness: a two-argument JSON_VALUE call is arity-clean, String-clean
and returns nullable JSON. -/
theorem json_extract_value_spec_witness :
    ((type_function st0 Function.JsonExtract [str_expr, str_expr] (0, 0)
        ExpressionFlags.default).2 = FullType.new Ty.JSON false)
    ∧ ((type_function st0 Function.JsonValue [str_expr, str_expr] (0, 0)
        ExpressionFlags.default).2 = FullType.new Ty.JSON false)
    ∧ (∃ l, (type_function st0 Function.JsonExtract [str_expr, str_expr] (0, 0)
          ExpressionFlags.default).1.issues = st0.issues ++ l
        ∧ arity_count l =
          (if 2 ≤ ([str_expr, str_expr] : List Expr).length
              ∧ ([str_expr, str_expr] : List Expr).length ≤ 999 then 0 else 1)
        ∧ mismatch_count l = ([str_expr, str_expr] : List Expr).countP
            (fun a => (matched_type_res a.etyp.t (Ty.Base BaseType.String)).isNone))
    ∧ (∃ l, (type_function st0 Function.JsonValue [str_expr, str_expr] (0, 0)
          ExpressionFlags.default).1.issues = st0.issues ++ l
        ∧ arity_count l =
          (if 2 ≤ ([str_expr, str_expr] : List Expr).length
              ∧ ([str_expr, str_expr] : List Expr).length ≤ 2 then 0 else 1)
        ∧ mismatch_count l = ([str_expr, str_expr] : List Expr).countP
            (fun a => (matched_type_res a.etyp.t (Ty.Base BaseType.String)).isNone)) :=
  json_extract_value_spec st0 [str_expr, str_expr] (0, 0) ExpressionFlags.default

end SqlType

namespace SqlType

/-- Whether the (first) target table exists in the catalog and has an
auto-increment column — the claim-side reading of the statement's target. -/
def table_has_auto_increment (schemas : Schemas) (table : List Identifier) : Bool :=
  match schemas.get ((table.head?.getD ⟨"", (0, 0)⟩).value) with
  | some schema => schema.columns.any (fun c => c.auto_increment)
  | none => false

/-- Whether the statement is an INSERT (as opposed to a REPLACE). -/
def is_insert_stmt : InsertReplaceType → Bool
  | .Insert _ => true
  | .Replace _ => false

/-- Whether the statement carries an IGNORE flag. -/
def has_ignore_flag (flags : List InsertReplaceFlag) : Bool :=
  flags.any (fun f => match f with | InsertReplaceFlag.Ignore _ => true | _ => false)

theorem todo_fold_schemas :
    ∀ (l : List Identifier) (st : Typer),
      (l.foldl (fun s x => s.push (Issue.err Message.notYetImplemented x.span)) st).schemas
        = st.schemas := by
  intro l
  induction l with
  | nil => intro st; rfl
  | cons x tl ih => intro st; rw [List.foldl_cons, ih]; rfl

theorem insert_select_compare_at_some (st : Typer) (s : List (FullType × Span))
    (c : List SelectTypeColumn) (i : Nat) (h : i < max s.length c.length) :
    (insert_select_compare_at st s c i).isSome = true := by
  unfold insert_select_compare_at
  rcases hs : s.get? i with _ | et <;> rcases hc : c.get? i with _ | t
  · exfalso
    rw [List.get?_eq_none] at hs hc
    omega
  · simp
  · simp
  · dsimp only
    split <;> simp

theorem compare_fold_some (s : List (FullType × Span)) (c : List SelectTypeColumn) :
    ∀ (l : List Nat), (∀ i ∈ l, i < max s.length c.length) →
      ∀ st : Typer,
        ((l.foldl (fun acc i =>
          match acc with
          | none => none
          | some st2 => insert_select_compare_at st2 s c i) (some st))).isSome = true := by
  intro l
  induction l with
  | nil => intro _ st; rfl
  | cons j tl ih =>
    intro h st
    rw [List.foldl_cons]
    have h1 := insert_select_compare_at_some st s c j (h j (List.mem_cons_self j tl))
    obtain ⟨st2, hst2⟩ := Option.isSome_iff_exists.mp h1
    show ((tl.foldl _ (insert_select_compare_at st s c j))).isSome = true
    rw [hst2]
    exact ih (fun i hi => h i (List.mem_cons_of_mem j hi)) st2

theorem insert_select_compare_some (st : Typer) (s : List (FullType × Span))
    (c : List SelectTypeColumn) :
    (insert_select_compare st s c).isSome = true := by
  unfold insert_select_compare
  exact compare_fold_some s c (List.range (max s.length c.length))
    (fun i hi => List.mem_range.mp hi) st

end SqlType

namespace SqlType

theorem option_map_const {α β : Type} (o : Option α) (f : α → β) (b : β)
    (h : o.isSome = true) (hf : ∀ a, f a = b) : o.map f = some b := by
  cases o with
  | none => simp at h
  | some a => simp [hf a]

theorem type_insert_replace_classification (st : Typer) (ior : InsertReplace) :
    (type_insert_replace st ior).map (fun r => r.2.1) =
      some (auto_increment_classification (table_has_auto_increment st.schemas ior.table)
        (is_insert_stmt ior.type_) (has_ignore_flag ior.flags)
        ior.on_duplicate_key_update.isSome) := by
  unfold type_insert_replace
  dsimp only
  rw [todo_fold_schemas]
  rcases hget : st.schemas.get ((ior.table.head?.getD ⟨"", (0, 0)⟩).value) with _ | schema <;>
    simp only [hget] <;>
    rcases hsel : ior.select with _ | sel <;>
    simp only [hsel, Option.map_map, Option.map_some'] <;>
    unfold table_has_auto_increment <;>
    rw [hget]
  · rfl
  · rfl
  · rfl
  · exact option_map_const _ _ _ (insert_select_compare_some _ _ _) (fun a => rfl)

theorem auto_increment_classification_cases (a b c d : Bool) :
    (auto_increment_classification a b c d = AutoIncrementId.Yes ↔
      (a = true ∧ b = true ∧ c = false ∧ d = false))
    ∧ (auto_increment_classification a b c d = AutoIncrementId.Optional ↔
      (a = true ∧ b = true ∧ (c = true ∨ d = true)))
    ∧ (auto_increment_classification a b c d = AutoIncrementId.No ↔
      ¬(a = true ∧ b = true)) := by
  cases a <;> cases b <;> cases c <;> cases d <;> decide

/-- C6: `type_insert_replace` always completes, and its auto-increment
classification is `Yes` exactly for a plain INSERT into a table with an
auto-increment column without IGNORE and without ON DUPLICATE KEY UPDATE,
`Optional` when the table has an auto-increment column, the statement is an
INSERT, and IGNORE or ON DUPLICATE KEY UPDATE is present, and `No` in every
other case (REPLACE statements and unknown tables included). -/
theorem type_insert_replace_auto_increment_id (st : Typer) (ior : InsertReplace) :
    ∃ r, type_insert_replace st ior = some r
      ∧ (r.2.1 = AutoIncrementId.Yes ↔
          (table_has_auto_increment st.schemas ior.table = true
            ∧ is_insert_stmt ior.type_ = true
            ∧ has_ignore_flag ior.flags = false
            ∧ ior.on_duplicate_key_update = none))
      ∧ (r.2.1 = AutoIncrementId.Optional ↔
          (table_has_auto_increment st.schemas ior.table = true
            ∧ is_insert_stmt ior.type_ = true
            ∧ (has_ignore_flag ior.flags = true
                ∨ ior.on_duplicate_key_update.isSome = true)))
      ∧ (r.2.1 = AutoIncrementId.No ↔
          ¬(table_has_auto_increment st.schemas ior.table = true
            ∧ is_insert_stmt ior.type_ = true)) := by
  have h := type_insert_replace_classification st ior
  rw [Option.map_eq_some'] at h
  obtain ⟨r, hr, hproj⟩ := h
  have hc := auto_increment_classification_cases
    (table_has_auto_increment st.schemas ior.table) (is_insert_stmt ior.type_)
    (has_ignore_flag ior.flags) ior.on_duplicate_key_update.isSome
  have hnone : (ior.on_duplicate_key_update.isSome = false) ↔
      ior.on_duplicate_key_update = none := by
    rcases ior.on_duplicate_key_update with _ | v <;> simp
  refine ⟨r, hr, ?_, ?_, ?_⟩
  · rw [hproj, hc.1, and_congr_right_iff]
    intro _
    rw [and_congr_right_iff]
    intro _
    rw [and_congr_right_iff]
    intro _
    exact hnone
  · rw [hproj, hc.2.1]
  · rw [hproj, hc.2.2]

/-- A concrete plain INSERT statement into an unknown table. -/
def ior0 : InsertReplace :=
  ⟨InsertReplaceType.Insert (0, 6), [], [⟨"t", (12, 13)⟩], [], none, none, none,
    none, none, none⟩

/-- C6 witness: on a concrete plain INSERT into a table absent from the
catalog, `type_insert_replace` completes and the classification laws hold. -/
theorem type_insert_replace_auto_increment_id_witness :
    ∃ r, type_insert_replace st0 ior0 = some r
      ∧ (r.2.1 = AutoIncrementId.Yes ↔
          (table_has_auto_increment st0.schemas ior0.table = true
            ∧ is_insert_stmt ior0.type_ = true
            ∧ has_ignore_flag ior0.flags = false
            ∧ ior0.on_duplicate_key_update = none))
      ∧ (r.2.1 = AutoIncrementId.Optional ↔
          (table_has_auto_increment st0.schemas ior0.table = true
            ∧ is_insert_stmt ior0.type_ = true
            ∧ (has_ignore_flag ior0.flags = true
                ∨ ior0.on_duplicate_key_update.isSome = true)))
      ∧ (r.2.1 = AutoIncrementId.No ↔
          ¬(table_has_auto_increment st0.schemas ior0.table = true
            ∧ is_insert_stmt ior0.type_ = true)) :=
  type_insert_replace_auto_increment_id st0 ior0

/-- C9: the both-sides-absent (`panic!("ICE")`) branch of the
INSERT-from-SELECT comparison is unreachable: for every destination column
list and SELECT column list the comparison completes (each compared index
has a column on at least one side), and `type_insert_replace` as a whole
never aborts. -/
theorem insert_select_compare_no_panic (st : Typer) (s : List (FullType × Span))
    (c : List SelectTypeColumn) (ior : InsertReplace) :
    (insert_select_compare st s c).isSome = true
    ∧ (type_insert_replace st ior).isSome = true := by
  refine ⟨insert_select_compare_some st s c, ?_⟩
  have h := type_insert_replace_classification st ior
  rw [Option.map_eq_some'] at h
  obtain ⟨r, hr, _⟩ := h
  rw [hr]
  rfl

end SqlType

namespace SqlType

/-- C7: `type_select` restores the reference-scope stack snapshot taken at
entry — FROM-clause bindings and the synthetic select-list scope never leak
into the enclosing scope — while the issue sink only grows. -/
theorem type_select_scope_frame (st : Typer) (select : Select) (warn_duplicate : Bool) :
    (type_select st select warn_duplicate).1.reference_types = st.reference_types
    ∧ ∃ l, (type_select st select warn_duplicate).1.issues = st.issues ++ l := by
  constructor
  · rfl
  · exact type_select_inner_extends st select warn_duplicate

/-- A concrete one-column SELECT with an aliased non-identifier expression. -/
def sel0 : Select :=
  ⟨(0, 20), [], none, none, [⟨int_expr, some ⟨"x", (5, 6)⟩⟩], none, none, none⟩

/-- C7 witness: the scope-stack frame property at a concrete SELECT. -/
theorem type_select_scope_frame_witness :
    (type_select st0 sel0 true).1.reference_types = st0.reference_types
    ∧ ∃ l, (type_select st0 sel0 true).1.issues = st0.issues ++ l :=
  type_select_scope_frame st0 sel0 true

/-- C8: when the accumulated and the new branch's column at one UNION
position carry the same name but types that do not unify, the
reconciliation body for that position pushes exactly one issue — the
incompatible-types error citing both concrete types — and no name-mismatch
issue, leaving the column list unchanged. -/
theorem union_merge_at_incompatible (st : Typer) (cols cols2 : List SelectTypeColumn)
    (i : Nat) (left uspan sspan : Span) (l r : SelectTypeColumn)
    (hl : cols.get? i = some l) (hr : cols2.get? i = some r)
    (hn : l.name = r.name)
    (hm : matched_type_res l.type_.t r.type_.t = none) :
    (union_merge_at st cols cols2 i left uspan sspan).1.issues =
      st.issues ++ [((Issue.err Message.incompatibleTypesInUnion uspan).frag
        (Message.columnIsOfType i l.type_.t) left).frag
        (Message.columnIsOfType i r.type_.t) sspan]
    ∧ (union_merge_at st cols cols2 i left uspan sspan).2 = cols := by
  unfold union_merge_at
  simp only [hl, hr]
  have hnn : ¬(l.name ≠ r.name) := fun h => h hn
  rw [if_neg hnn]
  have hc : (common_type st l.type_ r.type_).2 = none :=
    (common_type_none_iff st l.type_ r.type_).mpr hm
  simp only [hc]
  exact ⟨by simp [Typer.push_issues, common_type_issues], by trivial⟩

/-- A concrete Integer output column named x. -/
def colx_int : SelectTypeColumn :=
  ⟨some "x", FullType.new (Ty.Base BaseType.Integer) true, (0, 1)⟩

/-- A concrete String output column named x. -/
def colx_str : SelectTypeColumn :=
  ⟨some "x", FullType.new (Ty.Base BaseType.String) true, (2, 3)⟩

/-- C8 witness: `SELECT 1 AS x UNION SELECT 'y' AS x` shaped columns — one
incompatible-types error, no name error, columns unchanged. -/
theorem union_merge_at_incompatible_witness :
    (union_merge_at st0 [colx_int] [colx_str] 0 (0, 1) (4, 9) (2, 3)).1.issues =
      st0.issues ++ [((Issue.err Message.incompatibleTypesInUnion (4, 9)).frag
        (Message.columnIsOfType 0 colx_int.type_.t) (0, 1)).frag
        (Message.columnIsOfType 0 colx_str.type_.t) (2, 3)]
    ∧ (union_merge_at st0 [colx_int] [colx_str] 0 (0, 1) (4, 9) (2, 3)).2 = [colx_int] :=
  union_merge_at_incompatible st0 [colx_int] [colx_str] 0 (0, 1) (4, 9) (2, 3)
    colx_int colx_str (by decide) (by decide) (by decide) (by decide)

theorem map_name_set :
    ∀ (cols : List SelectTypeColumn) (i : Nat) (l : SelectTypeColumn) (t : FullType),
      cols.get? i = some l →
      (cols.set i { l with type_ := t }).map SelectTypeColumn.name =
        cols.map SelectTypeColumn.name := by
  intro cols
  induction cols with
  | nil => intro i l t h; simp at h
  | cons c tl ih =>
    intro i l t h
    cases i with
    | zero =>
      simp only [List.get?_cons_zero, Option.some.injEq] at h
      subst h
      simp [List.set]
    | succ n =>
      simp only [List.get?_cons_succ] at h
      simp [List.set, ih n l t h]

theorem union_merge_at_names (st : Typer) (cols cols2 : List SelectTypeColumn)
    (i : Nat) (a b c : Span) :
    ((union_merge_at st cols cols2 i a b c).2).map SelectTypeColumn.name =
      cols.map SelectTypeColumn.name := by
  unfold union_merge_at
  rcases hl : cols.get? i with _ | l <;> rcases hr : cols2.get? i with _ | r <;>
    simp only [hl, hr] <;> try rfl
  · rcases hname : r.name with _ | n <;> simp only [hname]
  · rcases hname : l.name with _ | n <;> simp only [hname]
  · split
    · next t heq => exact map_name_set cols i l t hl
    · rfl

theorem union_merge_names (st : Typer) (cols cols2 : List SelectTypeColumn)
    (a b c : Span) :
    ((union_merge st cols cols2 a b c).2).map SelectTypeColumn.name =
      cols.map SelectTypeColumn.name := by
  unfold union_merge
  generalize List.range (max cols.length cols2.length) = idxs
  induction idxs generalizing st cols with
  | nil => rfl
  | cons j tl ih =>
    rw [List.foldl_cons]
    rw [ih (union_merge_at st cols cols2 j a b c).1 (union_merge_at st cols cols2 j a b c).2]
    exact union_merge_at_names st cols cols2 j a b c

theorem type_union_withs_names :
    ∀ (ws : List UnionWith) (st : Typer) (t : SelectType) (left : Span),
      ((type_union_withs st t left ws).1).columns.map SelectTypeColumn.name =
        t.columns.map SelectTypeColumn.name := by
  intro ws
  induction ws with
  | nil => intro st t left; rfl
  | cons w tl ih =>
    intro st t left
    cases w with
    | mk w_stmt w_span =>
      show ((type_union_withs _ ⟨(union_merge _ t.columns _ left w_span
          w_stmt.spanOf).2⟩ _ tl).1).columns.map SelectTypeColumn.name = _
      rw [ih]
      exact union_merge_names _ t.columns _ left w_span w_stmt.spanOf

/-- C10: the output column list of `type_union` has exactly the names (and
hence count and order) of the first branch's output column list: folding
the remaining branches never appends, removes or renames a column. -/
theorem type_union_first_branch_columns (st : Typer) (u : Union) :
    ((type_union st u).2.columns.map SelectTypeColumn.name) =
      ((type_union_select st u.left).2.columns.map SelectTypeColumn.name) := by
  cases u with
  | mk left withs ob lim sp =>
    simp only [type_union, Union.left]
    exact type_union_withs_names withs _ _ _

end SqlType
